import Mathlib

/-!
Shallow embedding of the workflow replay engine coordinator found in
`src/machines/workflow_machines.rs`, together with proofs about its
event-and-command coordination loop.

Modelling conventions:

* The coordinator struct `WorkflowMachines` becomes the Lean structure
  `WFM.WfState M`, parameterised by an abstract type `M` of sub-state-machine
  states.  The sub-machines (`TemporalStateMachine` trait objects) live in
  other crates/files, so their behaviour is abstracted into a record of
  functions `WFM.MachineIface M` mirroring the trait's capability set.
* The slotmap `all_machines` never has entries removed, so machine keys are
  modelled as list indices into an append-only `List M`.  The source panics
  ("Machine must exist") on a dangling key; keys are created fresh and never
  deleted, so lookups are modelled totally via `List.getD` with the
  `Inhabited` default.
* `HashMap`/`VecDeque` become association lists / plain lists with explicit
  lookup, insert (replace-or-append) and remove operations.
* Rust methods mutate `&mut self` and may then return `Err`; mutations
  performed before the error persist.  Results are therefore modelled as
  `Except (WfState M × Failure) (WfState M × α)`: both outcomes carry the
  state as mutated so far.
* `panic!` / `unimplemented!` are distinguished from returned
  `WFMachinesError` values by the `Failure.panicked` constructor.
* `SystemTime` is modelled as `Nat`; protobuf timestamps as `Int`, whose
  conversion to `SystemTime` fails (maps to a Fatal error, as in the source)
  when out of range, modelled as negative.
* The `DrivenWorkflow` driver is modelled inside the state as lists that
  record jobs sent (`drive_me_jobs`) and the `start` / `signal` / `cancel`
  notifications.  A ghost field `dispatched` records each
  `submachine_handle_event` call (machine key, event id) so that theorems can
  speak about which events were dispatched to machines.
* Error message strings drop the interpolated runtime values of the source's
  `format!` calls but keep one fixed distinct string per error site.
* Telemetry (`MetricsContext`) and logging are side-effect free for the
  coordinator state and are omitted.
-/

set_option linter.unusedSectionVars false
set_option linter.unnecessarySeqFocus false

namespace WFM

/-- Event types distinguished by the coordinator.  All remaining history event
types are collapsed into `otherEventType`, matching the `_` arms of the
source. -/
inductive EventType where
  | workflowExecutionStarted
  | workflowTaskScheduled
  | workflowTaskStarted
  | workflowTaskCompleted
  | workflowExecutionSignaled
  | workflowExecutionCancelRequested
  | otherEventType (code : Int)
deriving DecidableEq

/-- Payloads are opaque to the coordinator. -/
abbrev Payload := Nat

/-- Attributes of a `WorkflowExecutionStarted` event, restricted to the fields
the coordinator reads. -/
structure WorkflowExecutionStartedAttrs where
  original_execution_run_id : String
  workflow_type : Option String
  input : List Payload
  header : Option (List (String × Payload))
deriving DecidableEq

/-- Attributes of a `WorkflowExecutionSignaled` event (opaque to the
coordinator: forwarded wholesale to the driver). -/
structure SignaledAttrs where
  signal_name : String
  input : List Payload
deriving DecidableEq

/-- Attributes of a `WorkflowExecutionCancelRequested` event (opaque to the
coordinator: forwarded wholesale to the driver). -/
structure CancelRequestedAttrs where
  cause : String
deriving DecidableEq

/-- The `attributes` oneof of a history event, restricted to the variants the
coordinator inspects. -/
inductive EventAttributes where
  | workflowExecutionStartedAttrs (a : WorkflowExecutionStartedAttrs)
  | workflowExecutionSignaledAttrs (a : SignaledAttrs)
  | workflowExecutionCancelRequestedAttrs (a : CancelRequestedAttrs)
  | otherAttrs (code : Nat)
deriving DecidableEq

/-- A history event.  The four derived predicates (`is_final_wf_execution_event`,
`is_command_event`, `get_initial_command_event_id`,
`get_changed_marker_details`) are implemented in the external `protosext`
module, so they are modelled as fields of the event. -/
structure HistoryEvent where
  event_id : Int
  event_type : EventType
  event_time : Option Int
  attributes : Option EventAttributes
  is_final_wf_execution_event : Bool
  is_command_event : Bool
  get_initial_command_event_id : Option Int
  get_changed_marker_details : Option (String × Bool)
deriving DecidableEq

/-- An outgoing protocol command; its contents are opaque to the coordinator
except for the command type (read by `prepare_commands`). -/
structure ProtoCommand where
  command_type : Int
  payload : Nat
deriving DecidableEq

/-- `wf_activation_job::Variant`: jobs sent to the lang side.  Variants
produced by sub-machines other than the ones built directly by the
coordinator are collapsed into `otherVariant`. -/
inductive Variant where
  | startWorkflow (workflow_type : String) (workflow_id : String)
      (arguments : List Payload) (randomness_seed : Nat)
      (headers : List (String × Payload))
  | notifyHasPatch (patch_id : String)
  | updateRandomSeed (randomness_seed : Nat)
  | otherVariant (code : Nat)
deriving DecidableEq

/-- `MachineResponse`: returned by sub-machines when handling events or
commands. -/
inductive MachineResponse where
  | pushWFJob (v : Variant)
  | issueNewCommand (c : ProtoCommand)
  | triggerWFTaskStarted (task_started_event_id : Int) (time : Nat)
  | updateRunIdOnWorkflowReset (run_id : String)
deriving DecidableEq

/-- `MachineKind`; the coordinator only ever compares against `Version`. -/
inductive MachineKind where
  | version
  | otherKind (code : Nat)
deriving DecidableEq

/-- `WFMachinesError`: the error taxonomy of the coordinator.  The
`tonic::Status` carried by `HistoryFetchingError` is opaque and modelled as a
numeric code. -/
inductive WFMachinesError where
  | nondeterminism (msg : String)
  | fatal (msg : String)
  | historyFetchingError (status : Nat)
  | cacheMiss
deriving DecidableEq

/-- A failure of a coordinator operation: either a returned
`WFMachinesError`, or a Rust `panic!` / `unimplemented!`. -/
inductive Failure where
  | err (e : WFMachinesError)
  | panicked (msg : String)
deriving DecidableEq

/-- `CommandAndMachine`: an outgoing command paired with the key of the
machine that owns it. -/
structure CommandAndMachine where
  command : ProtoCommand
  machine : Nat
deriving DecidableEq

/-- `ChangeInfo`: per-patch-id record. -/
structure ChangeInfo where
  deprecated : Bool
  created_command : Bool
deriving DecidableEq

/-- `CommandID`: identifiers assigned by workflow authors to their
operations. -/
inductive CommandID where
  | timer (seq : Nat)
  | activity (seq : Nat)
  | childWorkflowStart (seq : Nat)
  | signalExternal (seq : Nat)
  | cancelExternal (seq : Nat)
deriving DecidableEq

/-- `NamespacedWorkflowExecution`. -/
structure NamespacedWorkflowExecution where
  wfNamespace : String
  workflow_id : String
  run_id : String
deriving DecidableEq

/-- Target of an external cancel/signal command (`cancel_we::Target` and
`sig_we::Target` are structurally identical; one type models both). -/
inductive WeTarget where
  | childWorkflowId (workflow_id : String)
  | workflowExecution (we : NamespacedWorkflowExecution)
deriving DecidableEq

/-- Timer command attributes (the coordinator reads only `seq`). -/
structure TimerAttrs where
  seq : Nat
deriving DecidableEq

/-- Activity command attributes (the coordinator reads only `seq`). -/
structure ActivityAttrs where
  seq : Nat
deriving DecidableEq

/-- Child workflow command attributes (the coordinator reads only `seq`). -/
structure ChildWorkflowAttrs where
  seq : Nat
deriving DecidableEq

/-- `WFCommand`: commands pulled from the lang side by `iterate_machines`.
Attribute payloads not read by the coordinator are modelled as opaque
naturals. -/
inductive WFCommand where
  | addTimer (attrs : TimerAttrs)
  | cancelTimer (seq : Nat)
  | addActivity (attrs : ActivityAttrs)
  | requestCancelActivity (seq : Nat)
  | completeWorkflow (attrs : Nat)
  | failWorkflow (attrs : Nat)
  | continueAsNew (attrs : Nat)
  | cancelWorkflow (attrs : Nat)
  | setPatchMarker (patch_id : String) (deprecated : Bool)
  | addChildWorkflow (attrs : ChildWorkflowAttrs)
  | cancelUnstartedChild (child_workflow_seq : Nat)
  | requestCancelExternalWorkflow (seq : Nat) (target : Option WeTarget)
  | signalExternalWorkflow (seq : Nat) (target : Option WeTarget)
      (signal_name : String) (args : List Payload)
  | cancelSignalWorkflow (seq : Nat)
  | queryResponse
  | noCommandsFromLang
deriving DecidableEq

/-- The abstract capability set of a sub-state-machine
(`TemporalStateMachine`), plus the constructors for the machine variants the
coordinator creates and the two ambient effects it consults (`DefaultHasher`
based run-id hashing, `SystemTime::now`).  The machine implementations live
outside this file's source, so they are a parameter of the development. -/
structure MachineIface (M : Type) where
  is_final_state : M → Bool
  was_cancelled_before_sent_to_server : M → Bool
  kind : M → MachineKind
  matches_event : M → HistoryEvent → Bool
  handle_event : M → HistoryEvent → Bool → Except WFMachinesError (M × List MachineResponse)
  handle_command : M → Int → Except WFMachinesError (M × List MachineResponse)
  cancel : M → Except WFMachinesError (M × List MachineResponse)
  newWorkflowTaskMachine : Int → M
  new_timer : TimerAttrs → M × ProtoCommand
  new_activity : ActivityAttrs → M × ProtoCommand
  complete_workflow : Nat → M × ProtoCommand
  fail_workflow : Nat → M × ProtoCommand
  continue_as_new : Nat → M × ProtoCommand
  cancel_workflow : Nat → M × ProtoCommand
  has_change : String → Bool → Bool → M × ProtoCommand
  new_child_workflow : ChildWorkflowAttrs → M × ProtoCommand
  new_external_cancel : Nat → NamespacedWorkflowExecution → Bool → M × ProtoCommand
  new_external_signal : Nat → NamespacedWorkflowExecution → String → List Payload → Bool → M × ProtoCommand
  hashStr : String → Nat
  nowTime : Nat

/-- The coordinator state (`WorkflowMachines`).  `previous_started_event_id`
is the only field of the external `HistoryUpdate` the coordinator reads
directly; the lazily fetched event sequences are supplied as oracle inputs to
`apply_next_wft_from_history`. -/
structure WfState (M : Type) where
  previous_started_event_id : Int
  current_started_event_id : Int
  next_started_event_id : Int
  replaying : Bool
  wfNamespace : String
  workflow_id : String
  run_id : String
  workflow_start_time : Option Nat
  workflow_end_time : Option Nat
  current_wf_time : Option Nat
  all_machines : List M
  machines_by_event_id : List (Int × Nat)
  id_to_machine : List (CommandID × Nat)
  commands : List CommandAndMachine
  current_wf_task_commands : List CommandAndMachine
  encountered_change_markers : List (String × ChangeInfo)
  drive_me_jobs : List Variant
  drive_me_starts : List WorkflowExecutionStartedAttrs
  drive_me_signals : List SignaledAttrs
  drive_me_cancels : List CancelRequestedAttrs
  have_seen_terminal_event : Bool
  dispatched : List (Nat × Int)
deriving DecidableEq

/-- Result of a coordinator operation: the state as mutated so far is carried
on both the success and the failure path (Rust `&mut self` keeps mutations
that happened before an early `return Err`). -/
abbrev MResult (M : Type) (α : Type) := Except (WfState M × Failure) (WfState M × α)

deriving instance DecidableEq for Except

/-- The state carried by an operation result, whether it succeeded or
failed. -/
def mresState {M α : Type} : MResult M α → WfState M
  | .ok (s, _) => s
  | .error (s, _) => s

/-- Error propagation, modelling Rust's `?` operator: an error short-circuits
(keeping the state mutated so far), a success feeds state and value to the
continuation. -/
def mbind {M α β : Type} (r : MResult M α) (f : WfState M → α → MResult M β) :
    MResult M β :=
  match r with
  | .error e => .error e
  | .ok (s, a) => f s a

/-- Whether an operation result is a success. -/
def mresIsOk {M α : Type} : MResult M α → Bool
  | .ok _ => true
  | .error _ => false

/-- Association list lookup (`HashMap::get`). -/
def lookupAssoc {α β : Type} [DecidableEq α] : List (α × β) → α → Option β
  | [], _ => none
  | (k, v) :: rest, a => if k = a then some v else lookupAssoc rest a

/-- Association list insert (`HashMap::insert`): replace the existing entry
for the key, or append a fresh one. -/
def insertAssoc {α β : Type} [DecidableEq α] : List (α × β) → α → β → List (α × β)
  | [], a, b => [(a, b)]
  | (k, v) :: rest, a, b =>
    if k = a then (a, b) :: rest else (k, v) :: insertAssoc rest a b

/-- Association list removal (`HashMap::remove`): the removed value, if any,
and the remaining entries. -/
def removeAssoc {α β : Type} [DecidableEq α] : List (α × β) → α → Option β × List (α × β)
  | [], _ => (none, [])
  | (k, v) :: rest, a =>
    if k = a then (some v, rest)
    else
      let r := removeAssoc rest a
      (r.1, (k, v) :: r.2)

variable {M : Type} [Inhabited M]

/-- `WorkflowMachines::machine`: total model of the slotmap lookup.  The
source panics on a dangling key; keys are never removed, so the default is
never reached on states built by the operations. -/
def machineD (s : WfState M) (k : Nat) : M :=
  s.all_machines.getD k default

/-- `str_to_randomness_seed` composed with the external `DefaultHasher`,
abstracted into the interface. -/
def str_to_randomness_seed (iface : MachineIface M) (run_id : String) : Nat :=
  iface.hashStr run_id

/-- `WorkflowMachines::new`, minus the retained `HistoryUpdate` contents:
`previous_started_event_id` is the piece of the update the coordinator
reads. -/
def initialState (wfNamespace workflow_id run_id : String)
    (previous_started_event_id : Int) : WfState M where
  previous_started_event_id := previous_started_event_id
  current_started_event_id := 0
  next_started_event_id := 0
  replaying := previous_started_event_id > 0
  wfNamespace := wfNamespace
  workflow_id := workflow_id
  run_id := run_id
  workflow_start_time := none
  workflow_end_time := none
  current_wf_time := none
  all_machines := []
  machines_by_event_id := []
  id_to_machine := []
  commands := []
  current_wf_task_commands := []
  encountered_change_markers := []
  drive_me_jobs := []
  drive_me_starts := []
  drive_me_signals := []
  drive_me_cancels := []
  have_seen_terminal_event := false
  dispatched := []

/-- `workflow_is_finished`. -/
def workflow_is_finished (s : WfState M) : Bool :=
  s.workflow_end_time.isSome

/-- `total_runtime`: end minus start when both are present and time did not
go backwards. -/
def total_runtime (s : WfState M) : Option Nat :=
  match s.workflow_start_time, s.workflow_end_time with
  | some st, some et => if st ≤ et then some (et - st) else none
  | _, _ => none

/-- `set_current_time`: monotone update of the workflow clock. -/
def set_current_time (time : Nat) (s : WfState M) : WfState M :=
  if (s.current_wf_time.map (fun t => decide (t < time))).getD true then
    { s with current_wf_time := some time }
  else s

/-- `task_started`: record the started event id and advance the clock. -/
def task_started (task_started_event_id : Int) (time : Nat) (s : WfState M) : WfState M :=
  set_current_time time { s with current_started_event_id := task_started_event_id }

/-- `get_commands`: snapshot the command queue, dropping entries whose
machine is already final.  Takes `&self` in the source: it is a pure
function of the state. -/
def get_commands (iface : MachineIface M) (s : WfState M) : List ProtoCommand :=
  s.commands.filterMap fun c =>
    if !(iface.is_final_state (machineD s c.machine)) then some c.command else none

/-- `get_wf_activation`: drain the driver's buffered jobs into an activation.
Returns the activation fields (timestamp, is_replaying, run_id, jobs) and the
state with the job buffer drained. -/
def get_wf_activation (s : WfState M) :
    (Option Nat × Bool × String × List Variant) × WfState M :=
  ((s.current_wf_time, s.replaying, s.run_id, s.drive_me_jobs),
    { s with drive_me_jobs := [] })

/-- Error message of the empty-commands-queue nondeterminism error in
`handle_command_event` (the source interpolates the event display). -/
def noCommandScheduledMsg : String := "No command scheduled for event"

/-- Error message of the missing-machine nondeterminism error in
`handle_event`. -/
def missingCommandForEventMsg : String :=
  "During event handling, this event had an initial command ID but we could not find a matching command for it"

/-- Error message of the timestamp decoding Fatal error. -/
def couldNotDecodeTimestampMsg : String := "Could not decode timestamp"

/-- Error message of the malformed `WorkflowExecutionStarted` Fatal error. -/
def startedBadAttrsMsg : String :=
  "WorkflowExecutionStarted event did not have appropriate attributes"

/-- Error message of the unknown-event Fatal error in
`handle_non_stateful_event`. -/
def nonStatefulUnexpectedMsg : String :=
  "The event is non a non-stateful event, but we tried to handle it as one"

/-- Panic message of the `IssueNewCommand` arm of
`process_machine_responses`. -/
def issueNewCommandPanicMsg : String :=
  "Issue new command machine response not expected here"

/-- Panic message of the `QueryResponse` arm of `handle_driven_results`. -/
def queryResponsePanicMsg : String :=
  "Query responses should not make it down into the machines"

/-- Error message of the empty cancel-external target Fatal error. -/
def cancelExternalEmptyTargetMsg : String :=
  "Cancel external workflow command had empty target field"

/-- Error message of the empty signal-external target Fatal error. -/
def signalExternalEmptyTargetMsg : String :=
  "Signal external workflow command had empty target field"

/-- Error message of the missing-machine Fatal error in `get_machine_key`. -/
def missingMachineForIdMsg : String := "Missing associated machine for id"

/-- Error message of the unexpected-response Fatal error in
`process_cancellation`. -/
def unexpectedCancelResponseMsg : String :=
  "Unexpected machine response when cancelling"

/-- Error message of the non-deprecated-marker nondeterminism error in
`change_marker_handling`. -/
def nonDeprecatedMarkerMsg (patch_id : String) : String :=
  "Non-deprecated patch marker encountered for change " ++ patch_id ++
    ", but there is no corresponding change command!"

/-- `ChangeMarkerOutcome`. -/
inductive ChangeMarkerOutcome where
  | skipEvent
  | skipCommand
  | normal
deriving DecidableEq

/-- `change_marker_handling`: special handling for patch markers when a
command event is checked against the head-of-queue machine. -/
def change_marker_handling (iface : MachineIface M) (event : HistoryEvent)
    (mach : M) : Except WFMachinesError ChangeMarkerOutcome :=
  if !(iface.matches_event mach event) then
    match event.get_changed_marker_details with
    | some changed_info =>
      if changed_info.2 then .ok .skipEvent
      else .error (.nondeterminism (nonDeprecatedMarkerMsg changed_info.1))
    | none =>
      if iface.kind mach = .version then .ok .skipCommand
      else .ok .normal
  else .ok .normal

/-- `process_machine_responses`: interpret the responses a machine returned
from handling an event or command.  `IssueNewCommand` is a `panic!` at this
site in the source. -/
def process_machine_responses (iface : MachineIface M) (k : Nat) :
    WfState M → List MachineResponse → MResult M Unit
  | s, [] => .ok (s, ())
  | s, r :: rs =>
    match r with
    | .pushWFJob a =>
      process_machine_responses iface k
        { s with drive_me_jobs := s.drive_me_jobs ++ [a] } rs
    | .triggerWFTaskStarted task_started_event_id time =>
      process_machine_responses iface k (task_started task_started_event_id time s) rs
    | .updateRunIdOnWorkflowReset new_run_id =>
      process_machine_responses iface k
        { s with drive_me_jobs := s.drive_me_jobs ++
            [Variant.updateRandomSeed (str_to_randomness_seed iface new_run_id)] } rs
    | .issueNewCommand _ => .error (s, .panicked issueNewCommandPanicMsg)

/-- `submachine_handle_event`: feed an event to the machine stored at key
`k`, store the machine back, record the dispatch (ghost field), and process
the responses. -/
def submachine_handle_event (iface : MachineIface M) (k : Nat)
    (event : HistoryEvent) (has_next_event : Bool) (s : WfState M) : MResult M Unit :=
  match iface.handle_event (machineD s k) event has_next_event with
  | .error e => .error (s, .err e)
  | .ok (m2, machine_responses) =>
    process_machine_responses iface k
      { s with all_machines := s.all_machines.set k m2,
               dispatched := s.dispatched ++ [(k, event.event_id)] } machine_responses

/-- The `loop` of `handle_command_event`, recursing on the commands queue
(which is kept in sync with the state's `commands` field: each `pop_front`
of the source updates it).  Returns the consumed command, or `none` when the
loop exits through the `SkipEvent` early return. -/
def hceLoop (iface : MachineIface M) (event : HistoryEvent) :
    List CommandAndMachine → WfState M → MResult M (Option CommandAndMachine)
  | [], s => .error ({ s with commands := [] },
      .err (.nondeterminism noCommandScheduledMsg))
  | c :: rest, s =>
    match change_marker_handling iface event (machineD s c.machine) with
    | .error e => .error (s, .err e)
    | .ok .skipEvent => .ok (s, none)
    | .ok .skipCommand => hceLoop iface event rest { s with commands := rest }
    | .ok .normal =>
      let s0 := { s with commands := rest }
      if iface.was_cancelled_before_sent_to_server (machineD s0 c.machine) then
        hceLoop iface event rest s0
      else
        mbind (submachine_handle_event iface c.machine event true s0)
          fun s2 _ => .ok (s2, some c)

/-- `handle_command_event`: consume the head of the commands queue for a
command event, with change-marker special cases, and index the consumed
machine by the event id when it is not final. -/
def handle_command_event (iface : MachineIface M) (event : HistoryEvent)
    (s : WfState M) : MResult M Unit :=
  mbind (hceLoop iface event s.commands s) fun s2 consumed =>
    match consumed with
    | none => .ok (s2, ())
    | some consumed_cmd =>
      if !(iface.is_final_state (machineD s2 consumed_cmd.machine)) then
        let mbei := insertAssoc s2.machines_by_event_id event.event_id consumed_cmd.machine
        .ok ({ s2 with machines_by_event_id := mbei }, ())
      else .ok (s2, ())

/-- `handle_non_stateful_event`. -/
def handle_non_stateful_event (iface : MachineIface M) (event : HistoryEvent)
    (has_next_event : Bool) (s : WfState M) : MResult M Unit :=
  match event.event_type with
  | .workflowExecutionStarted =>
    match event.attributes with
    | some (.workflowExecutionStartedAttrs attrs) =>
      let s1 := { s with run_id := attrs.original_execution_run_id }
      let conv : MResult M Unit :=
        match event.event_time with
        | none => .ok (s1, ())
        | some st =>
          if 0 ≤ st then .ok ({ s1 with workflow_start_time := some st.toNat }, ())
          else .error (s1, .err (.fatal couldNotDecodeTimestampMsg))
      match conv with
      | .error e => .error e
      | .ok (s2, _) =>
        let job := Variant.startWorkflow
          (attrs.workflow_type.getD "")
          s2.workflow_id attrs.input
          (str_to_randomness_seed iface attrs.original_execution_run_id)
          (match attrs.header with
           | none => []
           | some fields => fields)
        .ok ({ s2 with
          drive_me_jobs := s2.drive_me_jobs ++ [job],
          drive_me_starts := s2.drive_me_starts ++ [attrs] }, ())
    | _ => .error (s, .err (.fatal startedBadAttrsMsg))
  | .workflowTaskScheduled =>
    let key := s.all_machines.length
    let wf_task_sm := iface.newWorkflowTaskMachine s.next_started_event_id
    let s1 := { s with all_machines := s.all_machines ++ [wf_task_sm] }
    mbind (submachine_handle_event iface key event has_next_event s1) fun s2 _ =>
      let mbei := insertAssoc s2.machines_by_event_id event.event_id key
      .ok ({ s2 with machines_by_event_id := mbei }, ())
  | .workflowExecutionSignaled =>
    match event.attributes with
    | some (.workflowExecutionSignaledAttrs attrs) =>
      .ok ({ s with drive_me_signals := s.drive_me_signals ++ [attrs] }, ())
    | _ => .ok (s, ())
  | .workflowExecutionCancelRequested =>
    match event.attributes with
    | some (.workflowExecutionCancelRequestedAttrs attrs) =>
      .ok ({ s with drive_me_cancels := s.drive_me_cancels ++ [attrs] }, ())
    | _ => .ok (s, ())
  | _ => .error (s, .err (.fatal nonStatefulUnexpectedMsg))

/-- The terminal-event latch at the top of `handle_event`. -/
def latch_terminal (event : HistoryEvent) (s : WfState M) : WfState M :=
  if event.is_final_wf_execution_event then
    { s with have_seen_terminal_event := true }
  else s

/-- The replay-finished flip of `handle_event` (taken only on non-command
events). -/
def replay_flip (event : HistoryEvent) (s : WfState M) : WfState M :=
  if s.replaying ∧
      s.current_started_event_id ≥ s.previous_started_event_id ∧
      event.event_type ≠ .workflowTaskCompleted then
    { s with replaying := false }
  else s

/-- The non-command tail of `handle_event`: dispatch by initiating event id
when present (removing the index entry and reinserting it only if the
machine is still non-final), otherwise handle as a non-stateful event. -/
def handle_event_no_command (iface : MachineIface M) (event : HistoryEvent)
    (has_next_event : Bool) (s : WfState M) : MResult M Unit :=
  match event.get_initial_command_event_id with
  | some initial_cmd_id =>
    let removed := removeAssoc s.machines_by_event_id initial_cmd_id
    match removed.1 with
    | none =>
      .error ({ s with machines_by_event_id := removed.2 },
        .err (.nondeterminism missingCommandForEventMsg))
    | some sm =>
      let s1 := { s with machines_by_event_id := removed.2 }
      mbind (submachine_handle_event iface sm event has_next_event s1) fun s2 _ =>
        if !(iface.is_final_state (machineD s2 sm)) then
          let mbei := insertAssoc s2.machines_by_event_id initial_cmd_id sm
          .ok ({ s2 with machines_by_event_id := mbei }, ())
        else .ok (s2, ())
  | none => handle_non_stateful_event iface event has_next_event s

/-- `handle_event`: handle a single event from the workflow history. -/
def handle_event (iface : MachineIface M) (event : HistoryEvent)
    (has_next_event : Bool) (s : WfState M) : MResult M Unit :=
  let s := latch_terminal event s
  if event.is_command_event then
    handle_command_event iface event s
  else
    handle_event_no_command iface event has_next_event (replay_flip event s)

/-- `add_new_command_machine`: insert the freshly constructed machine into
the slotmap and pair its key with the command. -/
def add_new_command_machine (mc : M × ProtoCommand) (s : WfState M) :
    CommandAndMachine × WfState M :=
  (⟨mc.2, s.all_machines.length⟩, { s with all_machines := s.all_machines ++ [mc.1] })

/-- `add_terminal_command`: create the machine, latch `workflow_end_time`
(`SystemTime::now`, supplied by the interface), queue the command. -/
def add_terminal_command (iface : MachineIface M) (mc : M × ProtoCommand)
    (s : WfState M) : WfState M :=
  let cs := add_new_command_machine mc s
  { cs.2 with workflow_end_time := some iface.nowTime,
              current_wf_task_commands := cs.2.current_wf_task_commands ++ [cs.1] }

/-- `get_machine_key`: look up the machine key recorded for a lang-side
command id. -/
def get_machine_key (id : CommandID) (s : WfState M) :
    Except (WfState M × Failure) Nat :=
  match lookupAssoc s.id_to_machine id with
  | some k => .ok k
  | none => .error (s, .err (.fatal missingMachineForIdMsg))

/-- The response loop of `process_cancellation`: `IssueNewCommand` is queued
(paired with the cancelled machine's key), `PushWFJob` is collected for the
returned job list, anything else is a Fatal error. -/
def cancelRespLoop (k : Nat) :
    WfState M → List Variant → List MachineResponse → MResult M (List Variant)
  | s, jobs, [] => .ok (s, jobs)
  | s, jobs, r :: rs =>
    match r with
    | .issueNewCommand c =>
      cancelRespLoop k
        { s with current_wf_task_commands := s.current_wf_task_commands ++ [⟨c, k⟩] }
        jobs rs
    | .pushWFJob j => cancelRespLoop k s (jobs ++ [j]) rs
    | _ => .error (s, .err (.fatal unexpectedCancelResponseMsg))

/-- `process_cancellation`: cancel the machine registered for `id` and
classify its responses. -/
def process_cancellation (iface : MachineIface M) (id : CommandID)
    (s : WfState M) : MResult M (List Variant) :=
  match get_machine_key id s with
  | .error e => .error e
  | .ok m_key =>
    match iface.cancel (machineD s m_key) with
    | .error e => .error (s, .err e)
    | .ok (m2, res) =>
      cancelRespLoop m_key
        { s with all_machines := s.all_machines.set m_key m2 } [] res

/-- Whether a command has already been created for this patch id
(the `matches!` guard of the `SetPatchMarker` arm). -/
def alreadyCreated (s : WfState M) (patch_id : String) : Bool :=
  match lookupAssoc s.encountered_change_markers patch_id with
  | some ci => ci.created_command
  | none => false

/-- The state produced by the `SetPatchMarker` arm of
`handle_driven_results` when no command exists yet for the patch id: one
patch machine created with `(patch_id, replaying, deprecated)`, its command
queued, and the `ChangeInfo` upserted with `created_command := true`. -/
def setPatchMarkerStep (iface : MachineIface M) (patch_id : String)
    (deprecated : Bool) (s : WfState M) : WfState M :=
  let cs := add_new_command_machine (iface.has_change patch_id s.replaying deprecated) s
  let s1 := { cs.2 with current_wf_task_commands := cs.2.current_wf_task_commands ++ [cs.1] }
  let markers :=
    match lookupAssoc s1.encountered_change_markers patch_id with
    | some ci =>
      insertAssoc s1.encountered_change_markers patch_id { ci with created_command := true }
    | none =>
      insertAssoc s1.encountered_change_markers patch_id ⟨deprecated, true⟩
  { s1 with encountered_change_markers := markers }

/-- The per-command step of `handle_driven_results`, folded over the list of
lang commands while accumulating the jobs to return. -/
def hdrLoop (iface : MachineIface M) :
    WfState M → List Variant → List WFCommand → MResult M (List Variant)
  | s, jobs, [] => .ok (s, jobs)
  | s, jobs, cmd :: rest =>
    match cmd with
    | .addTimer attrs =>
      let cs := add_new_command_machine (iface.new_timer attrs) s
      let s1 := cs.2
      let s2 := { s1 with
        id_to_machine := insertAssoc s1.id_to_machine (.timer attrs.seq) cs.1.machine,
        current_wf_task_commands := s1.current_wf_task_commands ++ [cs.1] }
      hdrLoop iface s2 jobs rest
    | .cancelTimer seq =>
      mbind (process_cancellation iface (.timer seq) s) fun s1 js =>
        hdrLoop iface s1 (jobs ++ js) rest
    | .addActivity attrs =>
      let cs := add_new_command_machine (iface.new_activity attrs) s
      let s1 := cs.2
      let s2 := { s1 with
        id_to_machine := insertAssoc s1.id_to_machine (.activity attrs.seq) cs.1.machine,
        current_wf_task_commands := s1.current_wf_task_commands ++ [cs.1] }
      hdrLoop iface s2 jobs rest
    | .requestCancelActivity seq =>
      mbind (process_cancellation iface (.activity seq) s) fun s1 js =>
        hdrLoop iface s1 (jobs ++ js) rest
    | .completeWorkflow attrs =>
      hdrLoop iface (add_terminal_command iface (iface.complete_workflow attrs) s) jobs rest
    | .failWorkflow attrs =>
      hdrLoop iface (add_terminal_command iface (iface.fail_workflow attrs) s) jobs rest
    | .continueAsNew attrs =>
      hdrLoop iface (add_terminal_command iface (iface.continue_as_new attrs) s) jobs rest
    | .cancelWorkflow attrs =>
      hdrLoop iface (add_terminal_command iface (iface.cancel_workflow attrs) s) jobs rest
    | .setPatchMarker patch_id deprecated =>
      if alreadyCreated s patch_id then
        hdrLoop iface s jobs rest
      else
        hdrLoop iface (setPatchMarkerStep iface patch_id deprecated s) jobs rest
    | .addChildWorkflow attrs =>
      let cs := add_new_command_machine (iface.new_child_workflow attrs) s
      let s1 := cs.2
      let s2 := { s1 with
        id_to_machine := insertAssoc s1.id_to_machine (.childWorkflowStart attrs.seq) cs.1.machine,
        current_wf_task_commands := s1.current_wf_task_commands ++ [cs.1] }
      hdrLoop iface s2 jobs rest
    | .cancelUnstartedChild child_workflow_seq =>
      mbind (process_cancellation iface (.childWorkflowStart child_workflow_seq) s) fun s1 js =>
        hdrLoop iface s1 (jobs ++ js) rest
    | .requestCancelExternalWorkflow seq target =>
      match target with
      | none => .error (s, .err (.fatal cancelExternalEmptyTargetMsg))
      | some t =>
        let weoc : NamespacedWorkflowExecution × Bool :=
          match t with
          | .childWorkflowId wfid => (⟨s.wfNamespace, wfid, ""⟩, true)
          | .workflowExecution we => (we, false)
        let cs := add_new_command_machine
          (iface.new_external_cancel seq weoc.1 weoc.2) s
        let s1 := cs.2
        let s2 := { s1 with
          id_to_machine := insertAssoc s1.id_to_machine (.cancelExternal seq) cs.1.machine,
          current_wf_task_commands := s1.current_wf_task_commands ++ [cs.1] }
        hdrLoop iface s2 jobs rest
    | .signalExternalWorkflow seq target signal_name args =>
      match target with
      | none => .error (s, .err (.fatal signalExternalEmptyTargetMsg))
      | some t =>
        let weoc : NamespacedWorkflowExecution × Bool :=
          match t with
          | .childWorkflowId wfid => (⟨s.wfNamespace, wfid, ""⟩, true)
          | .workflowExecution we => (we, false)
        let cs := add_new_command_machine
          (iface.new_external_signal seq weoc.1 signal_name args weoc.2) s
        let s1 := cs.2
        let s2 := { s1 with
          id_to_machine := insertAssoc s1.id_to_machine (.signalExternal seq) cs.1.machine,
          current_wf_task_commands := s1.current_wf_task_commands ++ [cs.1] }
        hdrLoop iface s2 jobs rest
    | .cancelSignalWorkflow seq =>
      mbind (process_cancellation iface (.signalExternal seq) s) fun s1 js =>
        hdrLoop iface s1 (jobs ++ js) rest
    | .queryResponse => .error (s, .panicked queryResponsePanicMsg)
    | .noCommandsFromLang => hdrLoop iface s jobs rest

/-- `handle_driven_results`: translate the workflow-issued commands into new
machines and queued commands, returning the jobs to queue for the pending
activation. -/
def handle_driven_results (iface : MachineIface M) (results : List WFCommand)
    (s : WfState M) : MResult M (List Variant) :=
  hdrLoop iface s [] results

/-- The drain loop of `prepare_commands`, recursing on
`current_wf_task_commands`.  `process_machine_responses` never pushes onto
that queue (its `IssueNewCommand` arm panics), so the queue only shrinks. -/
def prepareLoop (iface : MachineIface M) :
    List CommandAndMachine → WfState M → MResult M Unit
  | [], s => .ok (s, ())
  | c :: rest, s =>
    let s0 := { s with current_wf_task_commands := rest }
    if !(iface.was_cancelled_before_sent_to_server (machineD s0 c.machine)) then
      match iface.handle_command (machineD s0 c.machine) c.command.command_type with
      | .error e => .error (s0, .err e)
      | .ok (m2, machine_responses) =>
        let s1 := { s0 with all_machines := s0.all_machines.set c.machine m2 }
        mbind (process_machine_responses iface c.machine s1 machine_responses)
          fun s2 _ => prepareLoop iface rest { s2 with commands := s2.commands ++ [c] }
    else prepareLoop iface rest s0

/-- `prepare_commands`: drain `current_wf_task_commands` into `commands`,
calling `handle_command` on each non-pre-cancelled machine. -/
def prepare_commands (iface : MachineIface M) (s : WfState M) : MResult M Unit :=
  prepareLoop iface s.current_wf_task_commands s

/-- `iterate_machines`: pull lang commands (supplied as the oracle input
`results`, since `fetch_workflow_iteration_output` polls the external
driver), handle them, send the produced jobs, prepare commands.  Returns
whether new lang jobs were produced. -/
def iterate_machines (iface : MachineIface M) (results : List WFCommand)
    (s : WfState M) : MResult M Bool :=
  mbind (handle_driven_results iface results s) fun s1 jobs =>
    let has_new_lang_jobs := !jobs.isEmpty
    let s2 := { s1 with drive_me_jobs := s1.drive_me_jobs ++ jobs }
    mbind (prepare_commands iface s2) fun s3 _ => .ok (s3, has_new_lang_jobs)

/-- The event id of the first event of the taken sequence, 0 when empty
(mirrors the `match events.first()` of the source). -/
def firstEventId (events : List HistoryEvent) : Int :=
  match events.head? with
  | some event => event.event_id
  | none => 0

/-- The event dispatch loop of `apply_next_wft_from_history`: a final
`WorkflowTaskStarted` event is dispatched with `has_next_event = false` and
ends the loop. -/
def eventLoop (iface : MachineIface M) :
    List HistoryEvent → WfState M → MResult M Unit
  | [], s => .ok (s, ())
  | event :: rest, s =>
    if event.event_type = .workflowTaskStarted ∧ rest.isEmpty then
      handle_event iface event false s
    else
      mbind (handle_event iface event rest.isEmpty.not s) fun s1 _ =>
        eventLoop iface rest s1

/-- The patch pre-scan of `apply_next_wft_from_history`: record a
`ChangeInfo` and push a `NotifyHasPatch` job for every patch marker found in
the peeked next task. -/
def patchPrescan : List HistoryEvent → WfState M → WfState M
  | [], s => s
  | e :: rest, s =>
    match e.get_changed_marker_details with
    | some pd =>
      patchPrescan rest
        { s with
          encountered_change_markers :=
            insertAssoc s.encountered_change_markers pd.1 ⟨pd.2, false⟩,
          drive_me_jobs := s.drive_me_jobs ++ [Variant.notifyHasPatch pd.1] }
    | none => patchPrescan rest s

/-- The "caught up on replay" reset of `apply_next_wft_from_history`: when
the taken event list is empty, `replaying` is set to false (and execution
continues). -/
def empty_replay_reset (events : List HistoryEvent) (s : WfState M) : WfState M :=
  if events.isEmpty then { s with replaying := false } else s

/-- The `next_started_event_id` update of `apply_next_wft_from_history`:
when the last taken event is a `WorkflowTaskStarted`, remember its id. -/
def note_next_started (events : List HistoryEvent) (s : WfState M) : WfState M :=
  match events.getLast? with
  | some last_event =>
    if last_event.event_type = .workflowTaskStarted then
      { s with next_started_event_id := last_event.event_id }
    else s
  | none => s

/-- `apply_next_wft_from_history`.  The history cursor is external: the
outcome of `take_next_wft_sequence` (a fetched event list, or a transport
error status) and of `peek_next_wft_sequence` are oracle inputs. -/
def apply_next_wft_from_history (iface : MachineIface M)
    (takeRes : Except Nat (List HistoryEvent)) (peeked : List HistoryEvent)
    (s : WfState M) : MResult M Unit :=
  if s.have_seen_terminal_event then .ok (s, ())
  else
    match takeRes with
    | .error status => .error (s, .err (.historyFetchingError status))
    | .ok events =>
      let s := note_next_started events (empty_replay_reset events s)
      if s.current_started_event_id = 0 ∧ firstEventId events ≠ 1 ∧ ¬events.isEmpty then
        .error (s, .err .cacheMiss)
      else
        mbind (eventLoop iface events s) fun s1 _ =>
          .ok (patchPrescan peeked s1, ())

/-- `new_history_from_server`: replace the history update (of which the
coordinator reads `previous_started_event_id`), recompute `replaying`, apply
the next task. -/
def new_history_from_server (iface : MachineIface M)
    (previous_started_event_id : Int)
    (takeRes : Except Nat (List HistoryEvent)) (peeked : List HistoryEvent)
    (s : WfState M) : MResult M Unit :=
  apply_next_wft_from_history iface takeRes peeked
    { s with previous_started_event_id := previous_started_event_id,
             replaying := previous_started_event_id > 0 }

/-- The tuple of the coordinator-state fields that
`process_machine_responses` never touches (everything except the job buffer,
the workflow clock and `current_started_event_id`). -/
def frameTuple (s : WfState M) :=
  (s.previous_started_event_id, s.next_started_event_id, s.replaying,
   s.wfNamespace, s.workflow_id, s.run_id, s.workflow_start_time,
   s.workflow_end_time, s.all_machines, s.machines_by_event_id,
   s.id_to_machine, s.commands, s.current_wf_task_commands,
   s.encountered_change_markers, s.drive_me_starts, s.drive_me_signals,
   s.drive_me_cancels, s.have_seen_terminal_event, s.dispatched)

/-- Modelled from the spec (§4.2): the change-marker classification stated
in the spec's own case order, used to compare against the source's
`change_marker_handling`. -/
def change_marker_handling_spec (iface : MachineIface M) (event : HistoryEvent)
    (mach : M) : Except WFMachinesError ChangeMarkerOutcome :=
  if iface.matches_event mach event then .ok .normal
  else
    match event.get_changed_marker_details with
    | some changed_info =>
      if changed_info.2 then .ok .skipEvent
      else .error (.nondeterminism (nonDeprecatedMarkerMsg changed_info.1))
    | none =>
      if iface.kind mach = .version then .ok .skipCommand
      else .ok .normal

/-- Ordering on the optional workflow clock: `none` is below everything. -/
def optTimeLe : Option Nat → Option Nat → Prop
  | none, _ => True
  | some _, none => False
  | some x, some y => x ≤ y

/-- `process_machine_responses` preserves every state field outside the job
buffer, the workflow clock and `current_started_event_id`. -/
def pmrFrame (s s' : WfState M) : Prop :=
  frameTuple s' = frameTuple s

/-- The sub-machine handlers never return the `CacheMiss` error (that error
is the coordinator's own, constructed only at the cache-miss detection step;
the real machine implementations return Nondeterminism/Fatal). -/
def NoCacheMissHandlers (iface : MachineIface M) : Prop :=
  ∀ m e b, iface.handle_event m e b ≠ .error .cacheMiss

/-- The `handle_command_event` loop exhausts the queue without consuming a
command: every entry is either classified `SkipCommand`, or classified
`Normal` but discarded because its machine was cancelled before being sent to
the server.  (The state is unchanged while such entries are popped, so the
fixed state `s` is used for every classification.) -/
def runsOutOfCommands (iface : MachineIface M) (event : HistoryEvent)
    (s : WfState M) : List CommandAndMachine → Bool
  | [] => true
  | c :: rest =>
    match change_marker_handling iface event (machineD s c.machine) with
    | .ok .skipCommand => runsOutOfCommands iface event s rest
    | .ok .normal =>
      iface.was_cancelled_before_sent_to_server (machineD s c.machine) &&
        runsOutOfCommands iface event s rest
    | _ => false

/-- Invariant 3 of the spec, as a decidable predicate: every machine key
stored in `machines_by_event_id` refers to a machine that is not in a final
state. -/
def mbeiInvB (iface : MachineIface M) (s : WfState M) : Bool :=
  s.machines_by_event_id.all fun p => !(iface.is_final_state (machineD s p.2))

/-- Whether a machine response is `IssueNewCommand`. -/
def isIssueNewCommand : MachineResponse → Bool
  | .issueNewCommand _ => true
  | _ => false

/-- Whether a machine response is `PushWFJob`. -/
def isPushWFJob : MachineResponse → Bool
  | .pushWFJob _ => true
  | _ => false

/-- The commands issued by a cancellation response list, paired with the
cancelled machine's key (the `IssueNewCommand` arm of
`process_cancellation`). -/
def issuedPairs (k : Nat) (rs : List MachineResponse) : List CommandAndMachine :=
  rs.filterMap fun r =>
    match r with
    | .issueNewCommand c => some ⟨c, k⟩
    | _ => none

/-- The jobs collected from a cancellation response list (the `PushWFJob`
arm of `process_cancellation`). -/
def pushedJobs (rs : List MachineResponse) : List Variant :=
  rs.filterMap fun r =>
    match r with
    | .pushWFJob j => some j
    | _ => none

/-- The event's attributes are absent or not the
`WorkflowExecutionSignaledEventAttributes` variant. -/
def attrsNotSignaledVariant (event : HistoryEvent) : Bool :=
  match event.attributes with
  | some (.workflowExecutionSignaledAttrs _) => false
  | _ => true

/-- The event's attributes are absent or not the
`WorkflowExecutionCancelRequestedEventAttributes` variant. -/
def attrsNotCancelVariant (event : HistoryEvent) : Bool :=
  match event.attributes with
  | some (.workflowExecutionCancelRequestedAttrs _) => false
  | _ => true

/-- The event's attributes are absent or not the
`WorkflowExecutionStartedEventAttributes` variant. -/
def attrsNotStartedVariant (event : HistoryEvent) : Bool :=
  match event.attributes with
  | some (.workflowExecutionStartedAttrs _) => false
  | _ => true

/-- A concrete machine interface over `M := Bool` (the machine state is just
its `is_final_state` flag), parameterised by the event handler and the
cancel handler, used to instantiate witnesses and counterexamples. -/
def boolIface
    (he : Bool → HistoryEvent → Bool → Except WFMachinesError (Bool × List MachineResponse))
    (canc : Bool → Except WFMachinesError (Bool × List MachineResponse)) :
    MachineIface Bool where
  is_final_state := id
  was_cancelled_before_sent_to_server := fun _ => false
  kind := fun _ => .otherKind 0
  matches_event := fun _ _ => true
  handle_event := he
  handle_command := fun m _ => .ok (m, [])
  cancel := canc
  newWorkflowTaskMachine := fun _ => false
  new_timer := fun _ => (false, ⟨1, 0⟩)
  new_activity := fun _ => (false, ⟨2, 0⟩)
  complete_workflow := fun _ => (false, ⟨3, 0⟩)
  fail_workflow := fun _ => (false, ⟨4, 0⟩)
  continue_as_new := fun _ => (false, ⟨5, 0⟩)
  cancel_workflow := fun _ => (false, ⟨6, 0⟩)
  has_change := fun _ _ _ => (false, ⟨7, 0⟩)
  new_child_workflow := fun _ => (false, ⟨8, 0⟩)
  new_external_cancel := fun _ _ _ => (false, ⟨9, 0⟩)
  new_external_signal := fun _ _ _ _ _ => (false, ⟨10, 0⟩)
  hashStr := fun _ => 0
  nowTime := 0

/-- Interface whose machines accept every event without changing state. -/
def okIface : MachineIface Bool :=
  boolIface (fun m _ _ => .ok (m, [])) (fun m => .ok (m, []))

/-- Interface whose machines move to their final state on every event. -/
def finalizingIface : MachineIface Bool :=
  boolIface (fun _ _ _ => .ok (true, [])) (fun m => .ok (m, []))

/-- Interface whose machines answer a cancellation with one new command and
one lang job. -/
def cancellingIface : MachineIface Bool :=
  boolIface (fun m _ _ => .ok (m, []))
    (fun m => .ok (m, [.issueNewCommand ⟨11, 1⟩, .pushWFJob (.otherVariant 5)]))

/-- A fresh coordinator state over `Bool` machines. -/
def emptyState : WfState Bool :=
  initialState ("ns") ("wfid") ("runid") 0

/-- A `WorkflowTaskScheduled` history event with id 3. -/
def schedEvent : HistoryEvent where
  event_id := 3
  event_type := .workflowTaskScheduled
  event_time := none
  attributes := none
  is_final_wf_execution_event := false
  is_command_event := false
  get_initial_command_event_id := none
  get_changed_marker_details := none

/-- A history event with id 7 and an unclassified type (used in cache-miss
scenarios: partial history not starting at event id 1). -/
def plainEvent7 : HistoryEvent where
  event_id := 7
  event_type := .otherEventType 1
  event_time := none
  attributes := none
  is_final_wf_execution_event := false
  is_command_event := false
  get_initial_command_event_id := none
  get_changed_marker_details := none

/-- A command event with id 9. -/
def commandEvent9 : HistoryEvent where
  event_id := 9
  event_type := .otherEventType 2
  event_time := none
  attributes := none
  is_final_wf_execution_event := false
  is_command_event := true
  get_initial_command_event_id := none
  get_changed_marker_details := none

/-- A deprecated patch-marker event for patch id "P". -/
def patchMarkerEventP : HistoryEvent where
  event_id := 12
  event_type := .otherEventType 3
  event_time := none
  attributes := none
  is_final_wf_execution_event := false
  is_command_event := false
  get_initial_command_event_id := none
  get_changed_marker_details := some ("P", true)

/-- A `WorkflowExecutionSignaled` event whose attributes field is absent. -/
def signaledEventNoAttrs : HistoryEvent where
  event_id := 4
  event_type := .workflowExecutionSignaled
  event_time := none
  attributes := none
  is_final_wf_execution_event := false
  is_command_event := false
  get_initial_command_event_id := none
  get_changed_marker_details := none

/-- A `WorkflowExecutionCancelRequested` event whose attributes field holds
the wrong variant. -/
def cancelReqEventWrongAttrs : HistoryEvent where
  event_id := 5
  event_type := .workflowExecutionCancelRequested
  event_time := none
  attributes := some (.otherAttrs 0)
  is_final_wf_execution_event := false
  is_command_event := false
  get_initial_command_event_id := none
  get_changed_marker_details := none

/-- A `WorkflowExecutionStarted` event whose attributes field is absent. -/
def startedEventNoAttrs : HistoryEvent where
  event_id := 1
  event_type := .workflowExecutionStarted
  event_time := none
  attributes := none
  is_final_wf_execution_event := false
  is_command_event := false
  get_initial_command_event_id := none
  get_changed_marker_details := none

/-- Whether a failure is a returned `WFMachinesError` (as opposed to a
`panic!`/`unimplemented!`). -/
def failureIsWFError : Failure → Bool
  | .err _ => true
  | .panicked _ => false

/-- A coordinator state with one registered (non-final) machine recorded
under `CommandID::Timer(1)`. -/
def timerRegisteredState : WfState Bool :=
  { emptyState with all_machines := [false],
                    id_to_machine := [(CommandID.timer 1, 0)] }

/-- A result never fails with the `CacheMiss` error. -/
def ResultNotCM {α : Type} (r : MResult M α) : Prop :=
  ∀ s' f, r = .error (s', f) → f ≠ .err .cacheMiss

/-- The responses `cancellingIface` machines answer a cancellation with. -/
def cancelPair : List MachineResponse :=
  [.issueNewCommand ⟨11, 1⟩, .pushWFJob (.otherVariant 5)]

/-- The state expected after cancelling the registered timer of
`timerRegisteredState` under `cancellingIface`. -/
def cancelExpectedState : WfState Bool :=
  { timerRegisteredState with
      current_wf_task_commands := issuedPairs 0 cancelPair }

lemma filterMap_if_eq_map_filter (q : CommandAndMachine → Bool)
    (l : List CommandAndMachine) :
    (l.filterMap fun c => if q c then some c.command else none) =
      (l.filter fun c => q c).map fun c => c.command := by
  induction l with
  | nil => rfl
  | cons c l ih =>
    by_cases h : q c <;>
      simp [List.filterMap_cons, List.filter_cons, h, ih]

lemma optTimeLe_refl (o : Option Nat) : optTimeLe o o := by
  cases o <;> simp [optTimeLe]

lemma optTimeLe_trans {a b c : Option Nat}
    (h1 : optTimeLe a b) (h2 : optTimeLe b c) : optTimeLe a c := by
  cases a <;> cases b <;> cases c <;> simp_all [optTimeLe] <;> omega

lemma pmrFrame_refl (s : WfState M) : pmrFrame s s := rfl

lemma pmrFrame_trans {s1 s2 s3 : WfState M}
    (h1 : pmrFrame s1 s2) (h2 : pmrFrame s2 s3) : pmrFrame s1 s3 :=
  h2.trans h1

lemma pmrFrame_all_machines {s s' : WfState M} (h : pmrFrame s s') :
    s'.all_machines = s.all_machines :=
  congrArg (fun t => t.2.2.2.2.2.2.2.2.1) h

lemma pmrFrame_mbei {s s' : WfState M} (h : pmrFrame s s') :
    s'.machines_by_event_id = s.machines_by_event_id :=
  congrArg (fun t => t.2.2.2.2.2.2.2.2.2.1) h

lemma pmrFrame_commands {s s' : WfState M} (h : pmrFrame s s') :
    s'.commands = s.commands :=
  congrArg (fun t => t.2.2.2.2.2.2.2.2.2.2.2.1) h

lemma pmrFrame_cwtc {s s' : WfState M} (h : pmrFrame s s') :
    s'.current_wf_task_commands = s.current_wf_task_commands :=
  congrArg (fun t => t.2.2.2.2.2.2.2.2.2.2.2.2.1) h

lemma pmrFrame_markers {s s' : WfState M} (h : pmrFrame s s') :
    s'.encountered_change_markers = s.encountered_change_markers :=
  congrArg (fun t => t.2.2.2.2.2.2.2.2.2.2.2.2.2.1) h

lemma pmrFrame_dispatched {s s' : WfState M} (h : pmrFrame s s') :
    s'.dispatched = s.dispatched :=
  congrArg (fun t => t.2.2.2.2.2.2.2.2.2.2.2.2.2.2.2.2.2.2) h

lemma task_started_pmrFrame (id : Int) (t : Nat) (s : WfState M) :
    pmrFrame s (task_started id t s) := by
  unfold task_started set_current_time
  split <;> rfl

lemma task_started_time (id : Int) (t : Nat) (s : WfState M) :
    optTimeLe s.current_wf_time (task_started id t s).current_wf_time := by
  unfold task_started set_current_time
  cases h : s.current_wf_time with
  | none => split <;> simp [optTimeLe]
  | some x =>
    by_cases hx : x < t
    · simp [h, hx, optTimeLe]
      omega
    · simp [h, hx, optTimeLe]

lemma process_machine_responses_frame (iface : MachineIface M) (k : Nat)
    (rs : List MachineResponse) :
    ∀ s : WfState M, pmrFrame s (mresState (process_machine_responses iface k s rs)) := by
  induction rs with
  | nil => intro s; exact pmrFrame_refl s
  | cons r rs ih =>
    intro s
    cases r with
    | pushWFJob a => exact ih _
    | issueNewCommand c => exact pmrFrame_refl s
    | triggerWFTaskStarted id t =>
      exact pmrFrame_trans (task_started_pmrFrame id t s) (ih _)
    | updateRunIdOnWorkflowReset rid => exact ih _

lemma process_machine_responses_time (iface : MachineIface M) (k : Nat)
    (rs : List MachineResponse) :
    ∀ s : WfState M,
      optTimeLe s.current_wf_time
        (mresState (process_machine_responses iface k s rs)).current_wf_time := by
  induction rs with
  | nil => intro s; exact optTimeLe_refl _
  | cons r rs ih =>
    intro s
    cases r with
    | pushWFJob a =>
      simp only [process_machine_responses]
      exact ih { s with drive_me_jobs := s.drive_me_jobs ++ [a] }
    | issueNewCommand c => exact optTimeLe_refl _
    | triggerWFTaskStarted id t =>
      simp only [process_machine_responses]
      exact optTimeLe_trans (task_started_time id t s) (ih _)
    | updateRunIdOnWorkflowReset rid =>
      simp only [process_machine_responses]
      exact ih { s with drive_me_jobs := s.drive_me_jobs ++
        [Variant.updateRandomSeed (str_to_randomness_seed iface rid)] }

/-- C3: when a command event does not match the head-of-queue machine, the
classification of `change_marker_handling` is exactly the spec's: deprecated
patch-marker details give `SkipEvent`, non-deprecated patch-marker details
give a Nondeterminism error, otherwise a `Version`-kind machine gives
`SkipCommand`; in all remaining cases (including a matching machine) the
outcome is `Normal`. -/
theorem c3_change_marker_classification (iface : MachineIface M)
    (event : HistoryEvent) (mach : M) :
    change_marker_handling iface event mach =
      change_marker_handling_spec iface event mach := by
  unfold change_marker_handling change_marker_handling_spec
  cases h : iface.matches_event mach event <;> simp [h]

/-- C8: `get_commands` returns exactly the commands of the queue entries
whose owning machine is not in a final state, in queue order.  It is a pure
function of the state (`&self` in the source), so it modifies nothing, and
the equation holds for every state, in particular whenever
`workflow_is_finished` is true. -/
theorem c8_get_commands_filter (iface : MachineIface M) (s : WfState M) :
    get_commands iface s =
      (s.commands.filter fun c => !(iface.is_final_state (machineD s c.machine))).map
        fun c => c.command := by
  unfold get_commands
  exact filterMap_if_eq_map_filter _ _

lemma mbind_time {α β : Type} {x : Option Nat} {r : MResult M α}
    {f : WfState M → α → MResult M β}
    (hr : optTimeLe x (mresState r).current_wf_time)
    (hf : ∀ s' a, optTimeLe s'.current_wf_time (mresState (f s' a)).current_wf_time) :
    optTimeLe x (mresState (mbind r f)).current_wf_time := by
  cases r with
  | error e => exact hr
  | ok p =>
    obtain ⟨s', a⟩ := p
    exact optTimeLe_trans hr (hf s' a)

lemma mbind_preserve {α β γ : Type} (g : WfState M → γ) {r : MResult M α}
    {f : WfState M → α → MResult M β}
    (hf : ∀ s' a, g (mresState (f s' a)) = g s') :
    g (mresState (mbind r f)) = g (mresState r) := by
  cases r with
  | error e => rfl
  | ok p =>
    obtain ⟨s', a⟩ := p
    exact hf s' a

lemma submachine_time (iface : MachineIface M) (k : Nat) (event : HistoryEvent)
    (hne : Bool) (s : WfState M) :
    optTimeLe s.current_wf_time
      (mresState (submachine_handle_event iface k event hne s)).current_wf_time := by
  unfold submachine_handle_event
  cases h : iface.handle_event (machineD s k) event hne with
  | error e => exact optTimeLe_refl _
  | ok p =>
    obtain ⟨m2, rs⟩ := p
    exact process_machine_responses_time iface k rs
      { s with all_machines := s.all_machines.set k m2,
               dispatched := s.dispatched ++ [(k, event.event_id)] }

lemma hceLoop_time (iface : MachineIface M) (event : HistoryEvent) :
    ∀ (q : List CommandAndMachine) (s : WfState M),
      optTimeLe s.current_wf_time
        (mresState (hceLoop iface event q s)).current_wf_time := by
  intro q
  induction q with
  | nil => intro s; exact optTimeLe_refl _
  | cons c rest ih =>
    intro s
    simp only [hceLoop]
    cases change_marker_handling iface event (machineD s c.machine) with
    | error e => exact optTimeLe_refl _
    | ok o =>
      cases o with
      | skipEvent => exact optTimeLe_refl _
      | skipCommand => exact ih { s with commands := rest }
      | normal =>
        cases hc : iface.was_cancelled_before_sent_to_server
            (machineD { s with commands := rest } c.machine) <;> simp only [hc]
        · simp only [Bool.false_eq_true, if_false]
          exact mbind_time
            (submachine_time iface c.machine event true { s with commands := rest })
            (fun s' a => optTimeLe_refl _)
        · simp only [if_true]
          exact ih { s with commands := rest }

lemma handle_command_event_time (iface : MachineIface M) (event : HistoryEvent)
    (s : WfState M) :
    optTimeLe s.current_wf_time
      (mresState (handle_command_event iface event s)).current_wf_time := by
  unfold handle_command_event
  refine mbind_time (hceLoop_time iface event s.commands s) fun s' a => ?_
  cases a with
  | none => exact optTimeLe_refl _
  | some c =>
    cases hfin : iface.is_final_state (machineD s' c.machine) <;> simp [hfin] <;>
      exact optTimeLe_refl _

lemma handle_non_stateful_time (iface : MachineIface M) (event : HistoryEvent)
    (hne : Bool) (s : WfState M) :
    optTimeLe s.current_wf_time
      (mresState (handle_non_stateful_event iface event hne s)).current_wf_time := by
  unfold handle_non_stateful_event
  cases het : event.event_type with
  | workflowExecutionStarted =>
    cases hat : event.attributes with
    | none => exact optTimeLe_refl _
    | some a =>
      cases a with
      | workflowExecutionStartedAttrs attrs =>
        cases hts : event.event_time with
        | none => exact optTimeLe_refl _
        | some st =>
          by_cases hst : (0 : Int) ≤ st <;> simp only [hst, if_true, if_false] <;>
            exact optTimeLe_refl _
      | workflowExecutionSignaledAttrs a => exact optTimeLe_refl _
      | workflowExecutionCancelRequestedAttrs a => exact optTimeLe_refl _
      | otherAttrs code => exact optTimeLe_refl _
  | workflowTaskScheduled =>
    exact mbind_time
      (submachine_time iface s.all_machines.length event hne
        { s with all_machines := s.all_machines ++
            [iface.newWorkflowTaskMachine s.next_started_event_id] })
      (fun s' a => optTimeLe_refl _)
  | workflowExecutionSignaled =>
    cases hat : event.attributes with
    | none => exact optTimeLe_refl _
    | some a => cases a <;> exact optTimeLe_refl _
  | workflowExecutionCancelRequested =>
    cases hat : event.attributes with
    | none => exact optTimeLe_refl _
    | some a => cases a <;> exact optTimeLe_refl _
  | workflowTaskStarted => exact optTimeLe_refl _
  | workflowTaskCompleted => exact optTimeLe_refl _
  | otherEventType code => exact optTimeLe_refl _

lemma latch_terminal_time (event : HistoryEvent) (s : WfState M) :
    (latch_terminal event s).current_wf_time = s.current_wf_time := by
  unfold latch_terminal
  split <;> rfl

lemma replay_flip_time (event : HistoryEvent) (s : WfState M) :
    (replay_flip event s).current_wf_time = s.current_wf_time := by
  unfold replay_flip
  split <;> rfl

lemma handle_event_no_command_time (iface : MachineIface M) (event : HistoryEvent)
    (hne : Bool) (s : WfState M) :
    optTimeLe s.current_wf_time
      (mresState (handle_event_no_command iface event hne s)).current_wf_time := by
  unfold handle_event_no_command
  cases hi : event.get_initial_command_event_id with
  | none => exact handle_non_stateful_time iface event hne s
  | some initial_cmd_id =>
    dsimp only
    cases hr : (removeAssoc s.machines_by_event_id initial_cmd_id).1 with
    | none => exact optTimeLe_refl _
    | some sm =>
      refine mbind_time
        (submachine_time iface sm event hne
          { s with machines_by_event_id :=
              (removeAssoc s.machines_by_event_id initial_cmd_id).2 })
        fun s' a => ?_
      cases hfin : iface.is_final_state (machineD s' sm) <;> simp [hfin] <;>
        exact optTimeLe_refl _

lemma handle_event_time (iface : MachineIface M) (event : HistoryEvent)
    (hne : Bool) (s : WfState M) :
    optTimeLe s.current_wf_time
      (mresState (handle_event iface event hne s)).current_wf_time := by
  unfold handle_event
  by_cases hcmd : event.is_command_event = true <;> simp only [hcmd, if_true, if_false]
  · have h := handle_command_event_time iface event (latch_terminal event s)
    rw [latch_terminal_time] at h
    exact h
  · have h := handle_event_no_command_time iface event hne
      (replay_flip event (latch_terminal event s))
    rw [replay_flip_time, latch_terminal_time] at h
    exact h

lemma eventLoop_time (iface : MachineIface M) :
    ∀ (events : List HistoryEvent) (s : WfState M),
      optTimeLe s.current_wf_time
        (mresState (eventLoop iface events s)).current_wf_time := by
  intro events
  induction events with
  | nil => intro s; exact optTimeLe_refl _
  | cons e rest ih =>
    intro s
    simp only [eventLoop]
    by_cases hb : e.event_type = EventType.workflowTaskStarted ∧ rest.isEmpty = true
    · simp only [if_pos hb]
      exact handle_event_time iface e false s
    · simp only [if_neg hb]
      exact mbind_time (handle_event_time iface e rest.isEmpty.not s) fun s' a => ih s'

lemma patchPrescan_time :
    ∀ (l : List HistoryEvent) (s : WfState M),
      (patchPrescan l s).current_wf_time = s.current_wf_time := by
  intro l
  induction l with
  | nil => intro s; rfl
  | cons e rest ih =>
    intro s
    cases hm : e.get_changed_marker_details with
    | none =>
      simp only [patchPrescan, hm]
      exact ih s
    | some pd =>
      simp only [patchPrescan, hm]
      exact ih _

lemma patchPrescan_dispatched :
    ∀ (l : List HistoryEvent) (s : WfState M),
      (patchPrescan l s).dispatched = s.dispatched := by
  intro l
  induction l with
  | nil => intro s; rfl
  | cons e rest ih =>
    intro s
    cases hm : e.get_changed_marker_details with
    | none =>
      simp only [patchPrescan, hm]
      exact ih s
    | some pd =>
      simp only [patchPrescan, hm]
      exact ih _

lemma empty_replay_reset_time (events : List HistoryEvent) (s : WfState M) :
    (empty_replay_reset events s).current_wf_time = s.current_wf_time := by
  unfold empty_replay_reset
  split <;> rfl

lemma note_next_started_time (events : List HistoryEvent) (s : WfState M) :
    (note_next_started events s).current_wf_time = s.current_wf_time := by
  unfold note_next_started
  cases events.getLast? with
  | none => rfl
  | some last_event => dsimp only; split <;> rfl

lemma apply_next_wft_time (iface : MachineIface M)
    (takeRes : Except Nat (List HistoryEvent)) (peeked : List HistoryEvent)
    (s : WfState M) :
    optTimeLe s.current_wf_time
      (mresState (apply_next_wft_from_history iface takeRes peeked s)).current_wf_time := by
  unfold apply_next_wft_from_history
  by_cases ht : s.have_seen_terminal_event = true
  · rw [if_pos ht]
    exact optTimeLe_refl _
  · rw [if_neg ht]
    cases takeRes with
    | error status => exact optTimeLe_refl _
    | ok events =>
      dsimp only
      by_cases hcm : (note_next_started events
            (empty_replay_reset events s)).current_started_event_id = 0 ∧
          firstEventId events ≠ 1 ∧ ¬events.isEmpty = true
      · rw [if_pos hcm]
        have h : (note_next_started events (empty_replay_reset events s)).current_wf_time
            = s.current_wf_time := by
          rw [note_next_started_time, empty_replay_reset_time]
        have h2 : optTimeLe s.current_wf_time
            (note_next_started events (empty_replay_reset events s)).current_wf_time := by
          rw [h]
          exact optTimeLe_refl _
        exact h2
      · rw [if_neg hcm]
        have h := mbind_time
          (eventLoop_time iface events (note_next_started events (empty_replay_reset events s)))
          (f := fun s1 _ => Except.ok (patchPrescan peeked s1, ()))
          (fun s' a => by
            have hp : (mresState (Except.ok (patchPrescan peeked s', ()) :
                MResult M Unit)).current_wf_time = s'.current_wf_time :=
              patchPrescan_time peeked s'
            rw [hp]
            exact optTimeLe_refl _)
        rw [note_next_started_time, empty_replay_reset_time] at h
        exact h

lemma cancelRespLoop_time_eq (k : Nat) :
    ∀ (rs : List MachineResponse) (s : WfState M) (jobs : List Variant),
      (mresState (cancelRespLoop k s jobs rs)).current_wf_time = s.current_wf_time := by
  intro rs
  induction rs with
  | nil => intro s jobs; rfl
  | cons r rs ih =>
    intro s jobs
    cases r with
    | issueNewCommand c =>
      simp only [cancelRespLoop]
      exact ih _ _
    | pushWFJob j =>
      simp only [cancelRespLoop]
      exact ih _ _
    | triggerWFTaskStarted id t => rfl
    | updateRunIdOnWorkflowReset rid => rfl

lemma process_cancellation_time_eq (iface : MachineIface M) (id : CommandID)
    (s : WfState M) :
    (mresState (process_cancellation iface id s)).current_wf_time = s.current_wf_time := by
  unfold process_cancellation get_machine_key
  cases hlk : lookupAssoc s.id_to_machine id with
  | none => rfl
  | some m_key =>
    dsimp only
    cases hcan : iface.cancel (machineD s m_key) with
    | error e => rfl
    | ok p =>
      obtain ⟨m2, res⟩ := p
      exact cancelRespLoop_time_eq m_key res _ _

lemma hdrLoop_time_eq (iface : MachineIface M) :
    ∀ (cmds : List WFCommand) (s : WfState M) (jobs : List Variant),
      (mresState (hdrLoop iface s jobs cmds)).current_wf_time = s.current_wf_time := by
  intro cmds
  induction cmds with
  | nil => intro s jobs; rfl
  | cons cmd rest ih =>
    intro s jobs
    cases cmd with
    | addTimer attrs =>
      simp only [hdrLoop]
      exact ih _ _
    | cancelTimer seq =>
      simp only [hdrLoop]
      have h := mbind_preserve (fun st => st.current_wf_time)
        (r := process_cancellation iface (.timer seq) s)
        (f := fun s1 js => hdrLoop iface s1 (jobs ++ js) rest)
        (fun s' js => ih s' (jobs ++ js))
      exact h.trans (process_cancellation_time_eq iface _ s)
    | addActivity attrs =>
      simp only [hdrLoop]
      exact ih _ _
    | requestCancelActivity seq =>
      simp only [hdrLoop]
      have h := mbind_preserve (fun st => st.current_wf_time)
        (r := process_cancellation iface (.activity seq) s)
        (f := fun s1 js => hdrLoop iface s1 (jobs ++ js) rest)
        (fun s' js => ih s' (jobs ++ js))
      exact h.trans (process_cancellation_time_eq iface _ s)
    | completeWorkflow attrs =>
      simp only [hdrLoop]
      exact ih _ _
    | failWorkflow attrs =>
      simp only [hdrLoop]
      exact ih _ _
    | continueAsNew attrs =>
      simp only [hdrLoop]
      exact ih _ _
    | cancelWorkflow attrs =>
      simp only [hdrLoop]
      exact ih _ _
    | setPatchMarker patch_id deprecated =>
      simp only [hdrLoop]
      split
      · exact ih _ _
      · exact ih _ _
    | addChildWorkflow attrs =>
      simp only [hdrLoop]
      exact ih _ _
    | cancelUnstartedChild child_workflow_seq =>
      simp only [hdrLoop]
      have h := mbind_preserve (fun st => st.current_wf_time)
        (r := process_cancellation iface (.childWorkflowStart child_workflow_seq) s)
        (f := fun s1 js => hdrLoop iface s1 (jobs ++ js) rest)
        (fun s' js => ih s' (jobs ++ js))
      exact h.trans (process_cancellation_time_eq iface _ s)
    | requestCancelExternalWorkflow seq target =>
      simp only [hdrLoop]
      cases target with
      | none => rfl
      | some t => cases t <;> exact ih _ _
    | signalExternalWorkflow seq target signal_name args =>
      simp only [hdrLoop]
      cases target with
      | none => rfl
      | some t => cases t <;> exact ih _ _
    | cancelSignalWorkflow seq =>
      simp only [hdrLoop]
      have h := mbind_preserve (fun st => st.current_wf_time)
        (r := process_cancellation iface (.signalExternal seq) s)
        (f := fun s1 js => hdrLoop iface s1 (jobs ++ js) rest)
        (fun s' js => ih s' (jobs ++ js))
      exact h.trans (process_cancellation_time_eq iface _ s)
    | queryResponse => rfl
    | noCommandsFromLang =>
      simp only [hdrLoop]
      exact ih _ _

lemma prepareLoop_time (iface : MachineIface M) :
    ∀ (q : List CommandAndMachine) (s : WfState M),
      optTimeLe s.current_wf_time
        (mresState (prepareLoop iface q s)).current_wf_time := by
  intro q
  induction q with
  | nil => intro s; exact optTimeLe_refl _
  | cons c rest ih =>
    intro s
    simp only [prepareLoop]
    cases hca : iface.was_cancelled_before_sent_to_server
        (machineD { s with current_wf_task_commands := rest } c.machine) <;>
      simp only [hca, Bool.not_false, Bool.not_true, if_true, if_false]
    · cases hcmd : iface.handle_command
          (machineD { s with current_wf_task_commands := rest } c.machine)
          c.command.command_type with
      | error e => exact optTimeLe_refl _
      | ok p =>
        obtain ⟨m2, rs⟩ := p
        refine mbind_time (process_machine_responses_time iface c.machine rs
          { s with all_machines := s.all_machines.set c.machine m2,
                   current_wf_task_commands := rest }) fun s' a => ?_
        exact ih { s' with commands := s'.commands ++ [c] }
    · exact ih { s with current_wf_task_commands := rest }

lemma iterate_machines_time (iface : MachineIface M) (results : List WFCommand)
    (s : WfState M) :
    optTimeLe s.current_wf_time
      (mresState (iterate_machines iface results s)).current_wf_time := by
  unfold iterate_machines
  refine mbind_time (x := s.current_wf_time)
    (r := handle_driven_results iface results s) ?_ fun s1 jobs => ?_
  · have h : (mresState (handle_driven_results iface results s)).current_wf_time
        = s.current_wf_time := hdrLoop_time_eq iface results s []
    rw [h]
    exact optTimeLe_refl _
  · dsimp only
    refine mbind_time (x := s1.current_wf_time)
      (r := prepare_commands iface { s1 with drive_me_jobs := s1.drive_me_jobs ++ jobs }) ?_
      fun s3 _ => optTimeLe_refl _
    exact prepareLoop_time iface _ { s1 with drive_me_jobs := s1.drive_me_jobs ++ jobs }

/-- C7: workflow time is monotone.  `set_current_time t` stores exactly the
maximum of the previous clock and `t` (the clock is replaced only when `t`
is strictly greater, and set to `t` when previously unset).  Since every
write to `current_wf_time` goes through `set_current_time`, the clock never
decreases across the coordinator entry points: `apply_next_wft_from_history`,
`new_history_from_server`, `iterate_machines` and `get_wf_activation`
(success or failure). -/
theorem c7_time_monotonic :
    (∀ (s : WfState M) (t : Nat),
      (set_current_time t s).current_wf_time =
        some (match s.current_wf_time with
              | none => t
              | some o => max o t)) ∧
    (∀ (iface : MachineIface M) (takeRes : Except Nat (List HistoryEvent))
        (peeked : List HistoryEvent) (s : WfState M),
      optTimeLe s.current_wf_time
        (mresState (apply_next_wft_from_history iface takeRes peeked s)).current_wf_time) ∧
    (∀ (iface : MachineIface M) (prev : Int) (takeRes : Except Nat (List HistoryEvent))
        (peeked : List HistoryEvent) (s : WfState M),
      optTimeLe s.current_wf_time
        (mresState (new_history_from_server iface prev takeRes peeked s)).current_wf_time) ∧
    (∀ (iface : MachineIface M) (results : List WFCommand) (s : WfState M),
      optTimeLe s.current_wf_time
        (mresState (iterate_machines iface results s)).current_wf_time) ∧
    (∀ s : WfState M, ((get_wf_activation s).2).current_wf_time = s.current_wf_time) := by
  refine ⟨?_, ?_, ?_, ?_, ?_⟩
  · intro s t
    unfold set_current_time
    cases h : s.current_wf_time with
    | none => simp [h]
    | some o =>
      by_cases ho : o < t
      · have hc : (((some o).map fun t0 => decide (t0 < t)).getD true) = true := by
          simp [ho]
        rw [if_pos hc]
        show some t = some (max o t)
        rw [Nat.max_eq_right (Nat.le_of_lt ho)]
      · have hc : ¬((((some o).map fun t0 => decide (t0 < t)).getD true) = true) := by
          simp [ho]
        rw [if_neg hc, h]
        show some o = some (max o t)
        rw [Nat.max_eq_left (Nat.le_of_not_lt ho)]
  · intro iface takeRes peeked s
    exact apply_next_wft_time iface takeRes peeked s
  · intro iface prev takeRes peeked s
    exact apply_next_wft_time iface takeRes peeked
      { s with previous_started_event_id := prev, replaying := prev > 0 }
  · intro iface results s
    exact iterate_machines_time iface results s
  · intro s
    rfl

lemma lookupAssoc_insertAssoc_self {α β : Type} [DecidableEq α]
    (l : List (α × β)) (a : α) (b : β) :
    lookupAssoc (insertAssoc l a b) a = some b := by
  induction l with
  | nil => simp [insertAssoc, lookupAssoc]
  | cons kv rest ih =>
    obtain ⟨k, v⟩ := kv
    by_cases hk : k = a
    · simp [insertAssoc, lookupAssoc, hk]
    · simp [insertAssoc, lookupAssoc, hk, ih]

lemma alreadyCreated_setPatchMarkerStep (iface : MachineIface M)
    (patch_id : String) (dep : Bool) (s : WfState M) :
    alreadyCreated (setPatchMarkerStep iface patch_id dep s) patch_id = true := by
  simp only [alreadyCreated, setPatchMarkerStep, add_new_command_machine]
  cases hl : lookupAssoc s.encountered_change_markers patch_id with
  | some ci => simp [lookupAssoc_insertAssoc_self]
  | none => simp [lookupAssoc_insertAssoc_self]

/-- C9: for each patch id at most one patch machine/command is ever created
by `SetPatchMarker`.  When a command was already created for the patch id
the lang command is a no-op; otherwise exactly one patch machine is created
with `(patch_id, replaying, deprecated)`, appended to
`current_wf_task_commands`, and the `ChangeInfo` is upserted with
`created_command := true` (that is `setPatchMarkerStep`) — hence a second
`SetPatchMarker` for the same patch id creates nothing. -/
theorem c9_set_patch_marker_once (iface : MachineIface M) (s : WfState M)
    (patch_id : String) (dep dep' : Bool) :
    handle_driven_results iface [.setPatchMarker patch_id dep] s =
      .ok ((if alreadyCreated s patch_id then s
            else setPatchMarkerStep iface patch_id dep s), []) ∧
    handle_driven_results iface
        [.setPatchMarker patch_id dep, .setPatchMarker patch_id dep'] s =
      handle_driven_results iface [.setPatchMarker patch_id dep] s := by
  constructor
  · unfold handle_driven_results
    by_cases hac : alreadyCreated s patch_id = true
    · simp [hdrLoop, hac]
    · simp only [Bool.not_eq_true] at hac
      simp [hdrLoop, hac]
  · unfold handle_driven_results
    by_cases hac : alreadyCreated s patch_id = true
    · simp [hdrLoop, hac]
    · simp only [Bool.not_eq_true] at hac
      simp [hdrLoop, hac, alreadyCreated_setPatchMarkerStep]

/-- C10: a `WorkflowExecutionSignaled` or `WorkflowExecutionCancelRequested`
event whose attributes field is absent or of the wrong variant is silently
ignored by `handle_non_stateful_event`: it returns `Ok` with the state
entirely unchanged (no job pushed, nothing recorded).  In contrast, a
`WorkflowExecutionStarted` event with malformed attributes is a Fatal
error. -/
theorem c10_malformed_signal_ignored (iface : MachineIface M) (s : WfState M)
    (event : HistoryEvent) (b : Bool) :
    ((event.event_type = EventType.workflowExecutionSignaled ∧
        attrsNotSignaledVariant event = true) ∨
     (event.event_type = EventType.workflowExecutionCancelRequested ∧
        attrsNotCancelVariant event = true) →
      handle_non_stateful_event iface event b s = .ok (s, ())) ∧
    (event.event_type = EventType.workflowExecutionStarted ∧
        attrsNotStartedVariant event = true →
      handle_non_stateful_event iface event b s =
        .error (s, .err (.fatal startedBadAttrsMsg))) := by
  constructor
  · intro h
    unfold handle_non_stateful_event
    rcases h with ⟨het, hat⟩ | ⟨het, hat⟩ <;> rw [het] <;>
      cases ha : event.attributes with
      | none => rfl
      | some a =>
        cases a <;> first
        | rfl
        | (exfalso
           simp [attrsNotSignaledVariant, attrsNotCancelVariant, ha] at hat)
  · intro ⟨het, hat⟩
    unfold handle_non_stateful_event
    rw [het]
    cases ha : event.attributes with
    | none => rfl
    | some a =>
      cases a <;> first
      | rfl
      | (exfalso
         simp [attrsNotStartedVariant, ha] at hat)

/-- Witness for C10 at concrete malformed events: an attribute-less
`WorkflowExecutionSignaled` event is ignored, while an attribute-less
`WorkflowExecutionStarted` event is a Fatal error. -/
theorem c10_malformed_signal_ignored_witness :
    handle_non_stateful_event okIface signaledEventNoAttrs true emptyState =
      .ok (emptyState, ()) ∧
    handle_non_stateful_event okIface startedEventNoAttrs true emptyState =
      .error (emptyState, .err (.fatal startedBadAttrsMsg)) :=
  ⟨(c10_malformed_signal_ignored okIface emptyState signaledEventNoAttrs true).1
      (Or.inl ⟨rfl, rfl⟩),
   (c10_malformed_signal_ignored okIface emptyState startedEventNoAttrs true).2
      ⟨rfl, rfl⟩⟩

lemma runsOut_congr (iface : MachineIface M) (event : HistoryEvent)
    (s' s : WfState M) (h : s'.all_machines = s.all_machines) :
    ∀ q, runsOutOfCommands iface event s' q = runsOutOfCommands iface event s q := by
  intro q
  induction q with
  | nil => rfl
  | cons c rest ih =>
    simp only [runsOutOfCommands]
    have hm : machineD s' c.machine = machineD s c.machine := by
      unfold machineD
      rw [h]
    rw [hm, ih]

lemma hceLoop_runsOut (iface : MachineIface M) (event : HistoryEvent) :
    ∀ (q : List CommandAndMachine) (s : WfState M),
      runsOutOfCommands iface event s q = true →
      hceLoop iface event q s =
        .error ({ s with commands := [] },
          .err (.nondeterminism noCommandScheduledMsg)) := by
  intro q
  induction q with
  | nil => intro s hr; rfl
  | cons c rest ih =>
    intro s hr
    simp only [runsOutOfCommands] at hr
    simp only [hceLoop]
    cases hm : change_marker_handling iface event (machineD s c.machine) with
    | error e =>
      rw [hm] at hr
      exact absurd (show false = true from hr) (by decide)
    | ok o =>
      rw [hm] at hr
      cases o with
      | skipEvent => exact absurd (show false = true from hr) (by decide)
      | skipCommand =>
        have hr' : runsOutOfCommands iface event s rest = true := hr
        refine ih { s with commands := rest } ?_
        rw [runsOut_congr iface event { s with commands := rest } s rfl rest]
        exact hr'
      | normal =>
        have hr' : (iface.was_cancelled_before_sent_to_server (machineD s c.machine) &&
            runsOutOfCommands iface event s rest) = true := hr
        simp only [Bool.and_eq_true] at hr'
        obtain ⟨hc, hrest⟩ := hr'
        rw [if_pos (show iface.was_cancelled_before_sent_to_server
          (machineD { s with commands := rest } c.machine) = true from hc)]
        refine ih { s with commands := rest } ?_
        rw [runsOut_congr iface event { s with commands := rest } s rfl rest]
        exact hrest

/-- C2: whenever the commands queue is empty at the point where a command
must be consumed for a command event — empty on arrival, or exhausted by
entries that are skipped (`SkipCommand`) or discarded as
cancelled-before-sent — `handle_command_event` returns the
"no command scheduled" Nondeterminism error, and the event is dispatched to
no machine (the dispatch log is unchanged; the only state change is the
emptied queue). -/
theorem c2_empty_queue_nondeterminism (iface : MachineIface M)
    (event : HistoryEvent) (s : WfState M)
    (hrun : runsOutOfCommands iface event s s.commands = true) :
    handle_command_event iface event s =
      .error ({ s with commands := [] },
        .err (.nondeterminism noCommandScheduledMsg)) ∧
    (mresState (handle_command_event iface event s)).dispatched = s.dispatched := by
  have h := hceLoop_runsOut iface event s.commands s hrun
  constructor
  · unfold handle_command_event
    rw [h]
    rfl
  · unfold handle_command_event
    rw [h]
    rfl

/-- Witness for C2: a command event arriving at a coordinator whose commands
queue is empty yields the Nondeterminism error and no dispatch. -/
theorem c2_empty_queue_nondeterminism_witness :
    handle_command_event okIface commandEvent9 emptyState =
      .error ({ emptyState with commands := [] },
        .err (.nondeterminism noCommandScheduledMsg)) ∧
    (mresState (handle_command_event okIface commandEvent9 emptyState)).dispatched =
      emptyState.dispatched :=
  c2_empty_queue_nondeterminism okIface commandEvent9 emptyState rfl

/-- Counterexample to C5 as stated: with an empty taken event list the
function does not return before the later steps — the patch pre-scan of the
peeked next task still runs.  Here, with `take_next_wft_sequence` returning
`[]` and a deprecated patch marker for "P" in the peeked task, the call
succeeds but pushes a `NotifyHasPatch` job and records the marker, which the
claim asserts cannot happen. -/
theorem c5_counterexample :
    mresIsOk (apply_next_wft_from_history okIface (Except.ok [])
      [patchMarkerEventP] emptyState) = true ∧
    (mresState (apply_next_wft_from_history okIface (Except.ok [])
      [patchMarkerEventP] emptyState)).replaying = false ∧
    (mresState (apply_next_wft_from_history okIface (Except.ok [])
      [patchMarkerEventP] emptyState)).drive_me_jobs =
        [Variant.notifyHasPatch ("P")] ∧
    emptyState.drive_me_jobs = [] ∧
    (mresState (apply_next_wft_from_history okIface (Except.ok [])
      [patchMarkerEventP] emptyState)).encountered_change_markers =
        [(("P"), ⟨true, false⟩)] ∧
    emptyState.encountered_change_markers = [] := by
  decide

/-- C5 amended: if `take_next_wft_sequence` returns an empty event list (and
the terminal-event latch is unset), `apply_next_wft_from_history` sets
`replaying` to false, performs no cache-miss check and dispatches no events,
but it does not return immediately: it still performs the patch pre-scan of
the peeked next task, and then returns `Ok`. -/
theorem c5_empty_events_amended (iface : MachineIface M)
    (peeked : List HistoryEvent) (s : WfState M)
    (hterm : s.have_seen_terminal_event = false) :
    apply_next_wft_from_history iface (.ok []) peeked s =
      .ok (patchPrescan peeked { s with replaying := false }, ()) ∧
    (mresState (apply_next_wft_from_history iface (.ok []) peeked s)).dispatched =
      s.dispatched := by
  unfold apply_next_wft_from_history
  rw [if_neg (by simp [hterm])]
  dsimp only
  have hcm : ¬((note_next_started ([] : List HistoryEvent)
        (empty_replay_reset [] s)).current_started_event_id = 0 ∧
      firstEventId ([] : List HistoryEvent) ≠ 1 ∧
      ¬(([] : List HistoryEvent).isEmpty) = true) := by
    simp
  rw [if_neg hcm]
  constructor
  · rfl
  · exact patchPrescan_dispatched peeked { s with replaying := false }

/-- Witness for the amended C5 at a concrete fresh state. -/
theorem c5_empty_events_amended_witness :
    apply_next_wft_from_history okIface (Except.ok []) [] emptyState =
      .ok (patchPrescan [] { emptyState with replaying := false }, ()) ∧
    (mresState (apply_next_wft_from_history okIface (Except.ok []) [] emptyState)).dispatched =
      emptyState.dispatched :=
  c5_empty_events_amended okIface [] emptyState rfl

lemma process_machine_responses_append (iface : MachineIface M) (k : Nat) :
    ∀ (pre post : List MachineResponse) (s : WfState M),
      process_machine_responses iface k s (pre ++ post) =
        mbind (process_machine_responses iface k s pre)
          (fun s' _ => process_machine_responses iface k s' post) := by
  intro pre
  induction pre with
  | nil => intro post s; rfl
  | cons r rs ih =>
    intro post s
    cases r with
    | pushWFJob a =>
      simp only [List.cons_append, process_machine_responses]
      exact ih post _
    | triggerWFTaskStarted id t =>
      simp only [List.cons_append, process_machine_responses]
      exact ih post _
    | updateRunIdOnWorkflowReset rid =>
      simp only [List.cons_append, process_machine_responses]
      exact ih post _
    | issueNewCommand c => rfl

lemma process_machine_responses_no_issue_ok (iface : MachineIface M) (k : Nat) :
    ∀ (rs : List MachineResponse) (s : WfState M),
      (∀ r ∈ rs, isIssueNewCommand r = false) →
      ∃ s', process_machine_responses iface k s rs = .ok (s', ()) := by
  intro rs
  induction rs with
  | nil => intro s _; exact ⟨s, rfl⟩
  | cons r rest ih =>
    intro s h
    cases r with
    | pushWFJob a =>
      simp only [process_machine_responses]
      exact ih _ fun r hr => h r (List.mem_cons_of_mem _ hr)
    | triggerWFTaskStarted id t =>
      simp only [process_machine_responses]
      exact ih _ fun r hr => h r (List.mem_cons_of_mem _ hr)
    | updateRunIdOnWorkflowReset rid =>
      simp only [process_machine_responses]
      exact ih _ fun r hr => h r (List.mem_cons_of_mem _ hr)
    | issueNewCommand c =>
      exact absurd (h _ (List.mem_cons_self _ _)) (by simp [isIssueNewCommand])

lemma cancelRespLoop_all_classified (k : Nat) :
    ∀ (rs : List MachineResponse) (s : WfState M) (jobs : List Variant),
      (∀ r ∈ rs, (isIssueNewCommand r || isPushWFJob r) = true) →
      cancelRespLoop k s jobs rs =
        .ok ({ s with current_wf_task_commands :=
                 s.current_wf_task_commands ++ issuedPairs k rs },
             jobs ++ pushedJobs rs) := by
  intro rs
  induction rs with
  | nil =>
    intro s jobs _
    simp only [issuedPairs, pushedJobs, List.filterMap_nil, List.append_nil]
    rfl
  | cons r rest ih =>
    intro s jobs h
    have hr := h r (List.mem_cons_self r rest)
    have hrest : ∀ x ∈ rest, (isIssueNewCommand x || isPushWFJob x) = true :=
      fun x hx => h x (List.mem_cons_of_mem _ hx)
    cases r with
    | issueNewCommand c =>
      simp only [cancelRespLoop]
      rw [ih _ jobs hrest]
      simp only [issuedPairs, pushedJobs, List.filterMap_cons]
      simp [List.append_assoc]
    | pushWFJob j =>
      simp only [cancelRespLoop]
      rw [ih s _ hrest]
      simp only [issuedPairs, pushedJobs, List.filterMap_cons]
      simp [List.append_assoc]
    | triggerWFTaskStarted id t =>
      exact absurd hr (by simp [isIssueNewCommand, isPushWFJob])
    | updateRunIdOnWorkflowReset rid =>
      exact absurd hr (by simp [isIssueNewCommand, isPushWFJob])

/-- Counterexample to C4 as stated: an `IssueNewCommand` response reaching
`process_machine_responses` is a `panic!` (process abort), not a returned
`WFMachinesError::Fatal`: at a concrete input the result is the `panicked`
failure, which is not a `WFMachinesError` at all. -/
theorem c4_issue_new_command_counterexample :
    process_machine_responses cancellingIface 0 emptyState
      [.issueNewCommand ⟨11, 1⟩] =
      .error (emptyState, .panicked issueNewCommandPanicMsg) ∧
    failureIsWFError (.panicked issueNewCommandPanicMsg) = false := by
  decide

/-- C4 amended: an `IssueNewCommand` machine response is accepted only in
the cancellation flow, where `process_cancellation` appends each issued
command (paired with the cancelled machine's key) to
`current_wf_task_commands` and collects the pushed jobs; an
`IssueNewCommand` reaching `process_machine_responses` anywhere else causes
a panic (the source's `panic!`), not a recoverable Fatal error. -/
theorem c4_issue_new_command_amended (iface : MachineIface M) (s : WfState M)
    (id : CommandID) (k : Nat) (m2 : M) (rs : List MachineResponse)
    (kk : Nat) (pre rest : List MachineResponse) (c : ProtoCommand) :
    (lookupAssoc s.id_to_machine id = some k →
     iface.cancel (machineD s k) = .ok (m2, rs) →
     (∀ r ∈ rs, (isIssueNewCommand r || isPushWFJob r) = true) →
     process_cancellation iface id s =
       .ok ({ s with
                all_machines := s.all_machines.set k m2,
                current_wf_task_commands := s.current_wf_task_commands ++ issuedPairs k rs },
            pushedJobs rs)) ∧
    ((∀ r ∈ pre, isIssueNewCommand r = false) →
     process_machine_responses iface kk s (pre ++ .issueNewCommand c :: rest) =
       .error (mresState (process_machine_responses iface kk s pre),
         .panicked issueNewCommandPanicMsg)) := by
  constructor
  · intro hlk hcan hall
    unfold process_cancellation get_machine_key
    rw [hlk]
    dsimp only
    rw [hcan]
    dsimp only
    rw [cancelRespLoop_all_classified k rs
      { s with all_machines := s.all_machines.set k m2 } [] hall]
    rfl
  · intro hpre
    rw [process_machine_responses_append]
    obtain ⟨s', hs'⟩ := process_machine_responses_no_issue_ok iface kk pre s hpre
    rw [hs']
    rfl

/-- Witness for the amended C4: a registered timer machine whose `cancel`
answers with one `IssueNewCommand` and one `PushWFJob`, and a panic when the
same response reaches `process_machine_responses` after a job. -/
theorem c4_issue_new_command_amended_witness :
    process_cancellation cancellingIface (.timer 1) timerRegisteredState =
      .ok (cancelExpectedState, pushedJobs cancelPair) ∧
    process_machine_responses cancellingIface 0 timerRegisteredState
        ([.pushWFJob (.otherVariant 5)] ++ .issueNewCommand ⟨11, 1⟩ :: []) =
      .error (mresState (process_machine_responses cancellingIface 0
          timerRegisteredState [.pushWFJob (.otherVariant 5)]),
        .panicked issueNewCommandPanicMsg) :=
  ⟨(c4_issue_new_command_amended cancellingIface timerRegisteredState (.timer 1) 0
      false cancelPair 0 [.pushWFJob (.otherVariant 5)] [] ⟨11, 1⟩).1
      rfl rfl (by decide),
   (c4_issue_new_command_amended cancellingIface timerRegisteredState (.timer 1) 0
      false cancelPair 0 [.pushWFJob (.otherVariant 5)] [] ⟨11, 1⟩).2
      (by decide)⟩

lemma mem_insertAssoc {α β : Type} [DecidableEq α] :
    ∀ (l : List (α × β)) (a : α) (b : β) (p : α × β),
      p ∈ insertAssoc l a b → p ∈ l ∨ p = (a, b) := by
  intro l
  induction l with
  | nil =>
    intro a b p hp
    right
    simpa [insertAssoc] using hp
  | cons kv rest ih =>
    intro a b p hp
    obtain ⟨k, v⟩ := kv
    by_cases hk : k = a
    · simp only [insertAssoc, hk, if_true] at hp
      rcases List.mem_cons.mp hp with h | h
      · right; exact h
      · left; exact List.mem_cons_of_mem _ h
    · simp only [insertAssoc, hk, if_false] at hp
      rcases List.mem_cons.mp hp with h | h
      · left; exact h ▸ List.mem_cons_self _ _
      · rcases ih a b p h with h2 | h2
        · left; exact List.mem_cons_of_mem _ h2
        · right; exact h2

lemma mem_removeAssoc_snd {α β : Type} [DecidableEq α] :
    ∀ (l : List (α × β)) (a : α) (p : α × β),
      p ∈ (removeAssoc l a).2 → p ∈ l := by
  intro l
  induction l with
  | nil => intro a p hp; simpa [removeAssoc] using hp
  | cons kv rest ih =>
    intro a p hp
    obtain ⟨k, v⟩ := kv
    by_cases hk : k = a
    · simp only [removeAssoc, hk, if_true] at hp
      exact List.mem_cons_of_mem _ hp
    · simp only [removeAssoc, hk, if_false] at hp
      rcases List.mem_cons.mp hp with h | h
      · exact h ▸ List.mem_cons_self _ _
      · exact List.mem_cons_of_mem _ (ih a p h)

lemma getD_append_self (l : List M) (x : M) :
    (l ++ [x]).getD l.length default = x := by
  induction l with
  | nil => rfl
  | cons y l ih => simpa using ih

lemma set_append_self (l : List M) (x y : M) :
    (l ++ [x]).set l.length y = l ++ [y] := by
  induction l with
  | nil => rfl
  | cons z l ih => simpa [List.set] using ih

lemma latch_terminal_mbei (event : HistoryEvent) (s : WfState M) :
    (latch_terminal event s).machines_by_event_id = s.machines_by_event_id := by
  unfold latch_terminal
  split <;> rfl

lemma replay_flip_mbei (event : HistoryEvent) (s : WfState M) :
    (replay_flip event s).machines_by_event_id = s.machines_by_event_id := by
  unfold replay_flip
  split <;> rfl

lemma submachine_mbei (iface : MachineIface M) (k : Nat) (event : HistoryEvent)
    (hne : Bool) (s : WfState M) :
    (mresState (submachine_handle_event iface k event hne s)).machines_by_event_id =
      s.machines_by_event_id := by
  unfold submachine_handle_event
  cases h : iface.handle_event (machineD s k) event hne with
  | error e => rfl
  | ok p =>
    obtain ⟨m2, rs⟩ := p
    have h := pmrFrame_mbei (process_machine_responses_frame iface k rs
      { s with all_machines := s.all_machines.set k m2,
               dispatched := s.dispatched ++ [(k, event.event_id)] })
    exact h

lemma submachine_ok_machines (iface : MachineIface M) (k : Nat)
    (event : HistoryEvent) (hne : Bool) (s s2 : WfState M) (u : Unit)
    (h : submachine_handle_event iface k event hne s = .ok (s2, u)) :
    ∃ m2 rs, iface.handle_event (machineD s k) event hne = .ok (m2, rs) ∧
      s2.all_machines = s.all_machines.set k m2 := by
  unfold submachine_handle_event at h
  cases hhe : iface.handle_event (machineD s k) event hne with
  | error e =>
    rw [hhe] at h
    exact Except.noConfusion h
  | ok p =>
    obtain ⟨m2, rs⟩ := p
    rw [hhe] at h
    dsimp only at h
    refine ⟨m2, rs, rfl, ?_⟩
    have hf := pmrFrame_all_machines (process_machine_responses_frame iface k rs
      { s with all_machines := s.all_machines.set k m2,
               dispatched := s.dispatched ++ [(k, event.event_id)] })
    rw [h] at hf
    exact hf

lemma hceLoop_mbei (iface : MachineIface M) (event : HistoryEvent) :
    ∀ (q : List CommandAndMachine) (s : WfState M),
      (mresState (hceLoop iface event q s)).machines_by_event_id =
        s.machines_by_event_id := by
  intro q
  induction q with
  | nil => intro s; rfl
  | cons c rest ih =>
    intro s
    simp only [hceLoop]
    cases change_marker_handling iface event (machineD s c.machine) with
    | error e => rfl
    | ok o =>
      cases o with
      | skipEvent => rfl
      | skipCommand => exact ih { s with commands := rest }
      | normal =>
        cases hc : iface.was_cancelled_before_sent_to_server
            (machineD { s with commands := rest } c.machine) <;> simp only [hc]
        · simp only [Bool.false_eq_true, if_false]
          have h := mbind_preserve (fun st => st.machines_by_event_id)
            (r := submachine_handle_event iface c.machine event true
              { s with commands := rest })
            (f := fun s2 _ => Except.ok (s2, some c))
            (fun s' a => rfl)
          exact h.trans
            (submachine_mbei iface c.machine event true { s with commands := rest })
        · simp only [if_true]
          exact ih { s with commands := rest }

lemma hce_new_entries (iface : MachineIface M) (event : HistoryEvent) (s : WfState M) :
    ∀ p ∈ (mresState (handle_command_event iface event s)).machines_by_event_id,
      p ∈ s.machines_by_event_id ∨
      iface.is_final_state
        (machineD (mresState (handle_command_event iface event s)) p.2) = false := by
  unfold handle_command_event
  cases hh : hceLoop iface event s.commands s with
  | error e =>
    obtain ⟨s1, fl⟩ := e
    intro p hp
    left
    have hm : s1.machines_by_event_id = s.machines_by_event_id := by
      have h := hceLoop_mbei iface event s.commands s
      rw [hh] at h
      exact h
    have hp' : p ∈ s1.machines_by_event_id := hp
    exact hm ▸ hp'
  | ok p0 =>
    obtain ⟨s2, consumed⟩ := p0
    have hm : s2.machines_by_event_id = s.machines_by_event_id := by
      have h := hceLoop_mbei iface event s.commands s
      rw [hh] at h
      exact h
    cases consumed with
    | none =>
      intro p hp
      left
      have hp' : p ∈ s2.machines_by_event_id := hp
      exact hm ▸ hp'
    | some c =>
      cases hfin : iface.is_final_state (machineD s2 c.machine) with
      | true =>
        intro p hp
        dsimp only [mbind] at hp
        rw [hfin] at hp
        left
        have hp' : p ∈ s2.machines_by_event_id := hp
        exact hm ▸ hp'
      | false =>
        intro p hp
        dsimp only [mbind] at hp
        rw [hfin] at hp
        have hp' : p ∈ insertAssoc s2.machines_by_event_id event.event_id c.machine := hp
        rcases mem_insertAssoc _ _ _ _ hp' with h1 | h1
        · left
          exact hm ▸ h1
        · right
          subst h1
          dsimp only [mbind]
          rw [hfin]
          exact hfin

lemma hns_new_entries (iface : MachineIface M)
    (hwtm : ∀ (n : Int) (e : HistoryEvent) (b : Bool) (m2 : M) (rs : List MachineResponse),
      iface.handle_event (iface.newWorkflowTaskMachine n) e b = .ok (m2, rs) →
      iface.is_final_state m2 = false)
    (event : HistoryEvent) (hne : Bool) (s : WfState M) :
    ∀ p ∈ (mresState (handle_non_stateful_event iface event hne s)).machines_by_event_id,
      p ∈ s.machines_by_event_id ∨
      iface.is_final_state
        (machineD (mresState (handle_non_stateful_event iface event hne s)) p.2) = false := by
  unfold handle_non_stateful_event
  cases het : event.event_type with
  | workflowExecutionStarted =>
    cases hat : event.attributes with
    | none => intro p hp; left; exact hp
    | some a =>
      cases a with
      | workflowExecutionStartedAttrs attrs =>
        cases hts : event.event_time with
        | none => intro p hp; left; exact hp
        | some st =>
          dsimp only
          by_cases hst : (0 : Int) ≤ st
          · rw [if_pos hst]
            intro p hp
            left
            exact hp
          · rw [if_neg hst]
            intro p hp
            left
            exact hp
      | workflowExecutionSignaledAttrs a => intro p hp; left; exact hp
      | workflowExecutionCancelRequestedAttrs a => intro p hp; left; exact hp
      | otherAttrs code => intro p hp; left; exact hp
  | workflowTaskScheduled =>
    dsimp only
    cases hsub : submachine_handle_event iface s.all_machines.length event hne
        { s with all_machines := s.all_machines ++
            [iface.newWorkflowTaskMachine s.next_started_event_id] } with
    | error e =>
      obtain ⟨s1e, fl⟩ := e
      intro p hp
      left
      have hm : s1e.machines_by_event_id = s.machines_by_event_id := by
        have h := submachine_mbei iface s.all_machines.length event hne
          { s with all_machines := s.all_machines ++
              [iface.newWorkflowTaskMachine s.next_started_event_id] }
        rw [hsub] at h
        exact h
      have hp' : p ∈ s1e.machines_by_event_id := hp
      exact hm ▸ hp'
    | ok p0 =>
      obtain ⟨s2, u⟩ := p0
      have hm : s2.machines_by_event_id = s.machines_by_event_id := by
        have h := submachine_mbei iface s.all_machines.length event hne
          { s with all_machines := s.all_machines ++
              [iface.newWorkflowTaskMachine s.next_started_event_id] }
        rw [hsub] at h
        exact h
      intro p hp
      have hp' : p ∈ insertAssoc s2.machines_by_event_id event.event_id
          s.all_machines.length := hp
      rcases mem_insertAssoc _ _ _ _ hp' with h1 | h1
      · left
        exact hm ▸ h1
      · right
        subst h1
        obtain ⟨m2, rs, hhe, hall⟩ := submachine_ok_machines iface
          s.all_machines.length event hne _ s2 u hsub
        have hmach : machineD
            { s with all_machines := s.all_machines ++
                [iface.newWorkflowTaskMachine s.next_started_event_id] }
            s.all_machines.length =
            iface.newWorkflowTaskMachine s.next_started_event_id := by
          unfold machineD
          exact getD_append_self s.all_machines _
        rw [hmach] at hhe
        have hfin := hwtm s.next_started_event_id event hne m2 rs hhe
        have hres : machineD s2 s.all_machines.length = m2 := by
          unfold machineD
          rw [hall]
          show ((s.all_machines ++ [iface.newWorkflowTaskMachine
            s.next_started_event_id]).set s.all_machines.length m2).getD
            s.all_machines.length default = m2
          rw [set_append_self]
          exact getD_append_self s.all_machines m2
        have hgoal : iface.is_final_state (machineD s2 s.all_machines.length) = false := by
          rw [hres]
          exact hfin
        exact hgoal
  | workflowExecutionSignaled =>
    cases hat : event.attributes with
    | none => intro p hp; left; exact hp
    | some a => cases a <;> (intro p hp; left; exact hp)
  | workflowExecutionCancelRequested =>
    cases hat : event.attributes with
    | none => intro p hp; left; exact hp
    | some a => cases a <;> (intro p hp; left; exact hp)
  | workflowTaskStarted => intro p hp; left; exact hp
  | workflowTaskCompleted => intro p hp; left; exact hp
  | otherEventType code => intro p hp; left; exact hp

lemma henc_new_entries (iface : MachineIface M)
    (hwtm : ∀ (n : Int) (e : HistoryEvent) (b : Bool) (m2 : M) (rs : List MachineResponse),
      iface.handle_event (iface.newWorkflowTaskMachine n) e b = .ok (m2, rs) →
      iface.is_final_state m2 = false)
    (event : HistoryEvent) (hne : Bool) (s : WfState M) :
    ∀ p ∈ (mresState (handle_event_no_command iface event hne s)).machines_by_event_id,
      p ∈ s.machines_by_event_id ∨
      iface.is_final_state
        (machineD (mresState (handle_event_no_command iface event hne s)) p.2) = false := by
  unfold handle_event_no_command
  cases hi : event.get_initial_command_event_id with
  | none => exact hns_new_entries iface hwtm event hne s
  | some icid =>
    dsimp only
    cases hr : (removeAssoc s.machines_by_event_id icid).1 with
    | none =>
      intro p hp
      left
      have hp' : p ∈ (removeAssoc s.machines_by_event_id icid).2 := hp
      exact mem_removeAssoc_snd _ _ _ hp'
    | some sm =>
      dsimp only
      cases hsub : submachine_handle_event iface sm event hne
          { s with machines_by_event_id := (removeAssoc s.machines_by_event_id icid).2 } with
      | error e =>
        obtain ⟨s1e, fl⟩ := e
        intro p hp
        left
        have hm : s1e.machines_by_event_id = (removeAssoc s.machines_by_event_id icid).2 := by
          have h := submachine_mbei iface sm event hne
            { s with machines_by_event_id := (removeAssoc s.machines_by_event_id icid).2 }
          rw [hsub] at h
          exact h
        have hp' : p ∈ s1e.machines_by_event_id := hp
        rw [hm] at hp'
        exact mem_removeAssoc_snd _ _ _ hp'
      | ok p0 =>
        obtain ⟨s2, u⟩ := p0
        have hm : s2.machines_by_event_id = (removeAssoc s.machines_by_event_id icid).2 := by
          have h := submachine_mbei iface sm event hne
            { s with machines_by_event_id := (removeAssoc s.machines_by_event_id icid).2 }
          rw [hsub] at h
          exact h
        cases hfin : iface.is_final_state (machineD s2 sm) with
        | true =>
          intro p hp
          dsimp only [mbind] at hp
          rw [hfin] at hp
          left
          have hp' : p ∈ s2.machines_by_event_id := hp
          rw [hm] at hp'
          exact mem_removeAssoc_snd _ _ _ hp'
        | false =>
          intro p hp
          dsimp only [mbind] at hp
          rw [hfin] at hp
          have hp' : p ∈ insertAssoc s2.machines_by_event_id icid sm := hp
          rcases mem_insertAssoc _ _ _ _ hp' with h1 | h1
          · left
            rw [hm] at h1
            exact mem_removeAssoc_snd _ _ _ h1
          · right
            subst h1
            dsimp only [mbind]
            rw [hfin]
            exact hfin

/-- Counterexample to C6 as stated: the `WorkflowTaskScheduled` insertion
site of `handle_non_stateful_event` inserts into `machines_by_event_id`
without checking `is_final_state()`.  With machines that reach their final
state upon handling the scheduled event, one `handle_event` call takes a
state satisfying invariant 3 to a state violating it. -/
theorem c6_final_machine_indexed_counterexample :
    mbeiInvB finalizingIface emptyState = true ∧
    mresIsOk (handle_event finalizingIface schedEvent true emptyState) = true ∧
    mbeiInvB finalizingIface
      (mresState (handle_event finalizingIface schedEvent true emptyState)) = false := by
  decide

/-- C6 amended: entries inserted into `machines_by_event_id` by
`handle_event` at the command-event and initiating-event sites are guarded
by an `is_final_state() == false` check; the `WorkflowTaskScheduled` site
inserts without a check, so its entry is non-final only under the assumption
that a freshly created workflow-task machine is never final right after
handling an event.  Under that assumption, every entry of the resulting
index is either an entry of the original index or refers to a machine that
is not in a final state in the resulting state. -/
theorem c6_nonfinal_index_amended (iface : MachineIface M)
    (hwtm : ∀ (n : Int) (e : HistoryEvent) (b : Bool) (m2 : M) (rs : List MachineResponse),
      iface.handle_event (iface.newWorkflowTaskMachine n) e b = .ok (m2, rs) →
      iface.is_final_state m2 = false)
    (event : HistoryEvent) (b : Bool) (s : WfState M) :
    ∀ p ∈ (mresState (handle_event iface event b s)).machines_by_event_id,
      p ∈ s.machines_by_event_id ∨
      iface.is_final_state
        (machineD (mresState (handle_event iface event b s)) p.2) = false := by
  unfold handle_event
  by_cases hcmd : event.is_command_event = true <;> simp only [hcmd, if_true, if_false]
  · intro p hp
    rcases hce_new_entries iface event (latch_terminal event s) p hp with h1 | h1
    · left
      rw [latch_terminal_mbei] at h1
      exact h1
    · right
      exact h1
  · intro p hp
    rcases henc_new_entries iface hwtm event b
        (replay_flip event (latch_terminal event s)) p hp with h1 | h1
    · left
      rw [replay_flip_mbei, latch_terminal_mbei] at h1
      exact h1
    · right
      exact h1

/-- Witness for the amended C6: the entry created by a
`WorkflowTaskScheduled` event on a fresh coordinator refers to a non-final
machine. -/
theorem c6_nonfinal_index_amended_witness :
    (3, 0) ∈ (mresState (handle_event okIface schedEvent true emptyState)).machines_by_event_id ∧
    ((3, 0) ∈ emptyState.machines_by_event_id ∨
      okIface.is_final_state
        (machineD (mresState (handle_event okIface schedEvent true emptyState)) 0) = false) :=
  ⟨by decide,
   c6_nonfinal_index_amended okIface
     (by
       intro n e b m2 rs h
       injection h with h1
       injection h1 with h2 h3
       rw [← h2]
       rfl)
     schedEvent true emptyState (3, 0) (by decide)⟩

lemma notCM_of_ok {α : Type} (x : WfState M × α) :
    ResultNotCM (M := M) (.ok x) := by
  intro s' f h
  exact Except.noConfusion h

lemma notCM_of_error {α : Type} (s0 : WfState M) (f0 : Failure)
    (hf : f0 ≠ .err .cacheMiss) :
    ResultNotCM (α := α) (.error (s0, f0)) := by
  intro s' f h
  injection h with h1
  injection h1 with h2 h3
  subst h3
  exact hf

lemma notCM_mbind {α β : Type} {r : MResult M α}
    {f : WfState M → α → MResult M β}
    (hr : ResultNotCM r) (hf : ∀ s a, ResultNotCM (f s a)) :
    ResultNotCM (mbind r f) := by
  intro s' f' h
  cases hr2 : r with
  | error e =>
    rw [hr2] at h
    dsimp only [mbind] at h
    injection h with h1
    exact hr s' f' (by rw [hr2, h1])
  | ok p =>
    obtain ⟨s1, a⟩ := p
    rw [hr2] at h
    dsimp only [mbind] at h
    exact hf s1 a s' f' h

lemma change_marker_handling_not_cm (iface : MachineIface M)
    (event : HistoryEvent) (m : M) :
    ∀ e, change_marker_handling iface event m = .error e → e ≠ .cacheMiss := by
  intro e h
  unfold change_marker_handling at h
  split at h
  · split at h
    · split at h
      · exact Except.noConfusion h
      · injection h with h1
        intro hc
        subst hc
        exact WFMachinesError.noConfusion h1
    · split at h <;> exact Except.noConfusion h
  · exact Except.noConfusion h

lemma pmr_not_cm (iface : MachineIface M) (k : Nat) :
    ∀ (rs : List MachineResponse) (s : WfState M),
      ResultNotCM (process_machine_responses iface k s rs) := by
  intro rs
  induction rs with
  | nil => intro s; exact notCM_of_ok _
  | cons r rest ih =>
    intro s
    cases r with
    | pushWFJob a =>
      simp only [process_machine_responses]
      exact ih _
    | triggerWFTaskStarted id t =>
      simp only [process_machine_responses]
      exact ih _
    | updateRunIdOnWorkflowReset rid =>
      simp only [process_machine_responses]
      exact ih _
    | issueNewCommand c =>
      exact notCM_of_error s (.panicked issueNewCommandPanicMsg)
        (fun h => Failure.noConfusion h)

lemma submachine_not_cm (iface : MachineIface M) (hnc : NoCacheMissHandlers iface)
    (k : Nat) (event : HistoryEvent) (hne : Bool) (s : WfState M) :
    ResultNotCM (submachine_handle_event iface k event hne s) := by
  unfold submachine_handle_event
  cases hhe : iface.handle_event (machineD s k) event hne with
  | error e =>
    refine notCM_of_error s (.err e) ?_
    intro h
    injection h with h1
    exact hnc (machineD s k) event hne (h1 ▸ hhe)
  | ok p =>
    obtain ⟨m2, rs⟩ := p
    exact pmr_not_cm iface k rs _

lemma hceLoop_not_cm (iface : MachineIface M) (hnc : NoCacheMissHandlers iface)
    (event : HistoryEvent) :
    ∀ (q : List CommandAndMachine) (s : WfState M),
      ResultNotCM (hceLoop iface event q s) := by
  intro q
  induction q with
  | nil =>
    intro s
    refine notCM_of_error _ _ ?_
    intro h
    injection h with h1
    exact WFMachinesError.noConfusion h1
  | cons c rest ih =>
    intro s
    simp only [hceLoop]
    cases hm : change_marker_handling iface event (machineD s c.machine) with
    | error e =>
      refine notCM_of_error s (.err e) ?_
      intro h
      injection h with h1
      exact change_marker_handling_not_cm iface event _ e hm h1
    | ok o =>
      cases o with
      | skipEvent => exact notCM_of_ok _
      | skipCommand => exact ih _
      | normal =>
        cases hc : iface.was_cancelled_before_sent_to_server
            (machineD { s with commands := rest } c.machine) <;> simp only [hc]
        · simp only [Bool.false_eq_true, if_false]
          exact notCM_mbind (submachine_not_cm iface hnc c.machine event true _)
            (fun s' a => notCM_of_ok _)
        · simp only [if_true]
          exact ih _

lemma hce_not_cm (iface : MachineIface M) (hnc : NoCacheMissHandlers iface)
    (event : HistoryEvent) (s : WfState M) :
    ResultNotCM (handle_command_event iface event s) := by
  unfold handle_command_event
  refine notCM_mbind (hceLoop_not_cm iface hnc event s.commands s) fun s' a => ?_
  cases a with
  | none => exact notCM_of_ok _
  | some c =>
    intro s'' f h
    split at h <;> (try split at h) <;> simp at h

lemma hns_not_cm (iface : MachineIface M) (hnc : NoCacheMissHandlers iface)
    (event : HistoryEvent) (hne : Bool) (s : WfState M) :
    ResultNotCM (handle_non_stateful_event iface event hne s) := by
  unfold handle_non_stateful_event
  cases het : event.event_type with
  | workflowExecutionStarted =>
    cases hat : event.attributes with
    | none =>
      exact notCM_of_error s (.err (.fatal startedBadAttrsMsg))
        (fun h => by injection h with h1; exact WFMachinesError.noConfusion h1)
    | some a =>
      cases a with
      | workflowExecutionStartedAttrs attrs =>
        dsimp only
        cases hts : event.event_time with
        | none => exact notCM_of_ok _
        | some st =>
          dsimp only
          by_cases hst : (0 : Int) ≤ st
          · rw [if_pos hst]
            exact notCM_of_ok _
          · rw [if_neg hst]
            exact notCM_of_error _ (.err (.fatal couldNotDecodeTimestampMsg))
              (fun h => by injection h with h1; exact WFMachinesError.noConfusion h1)
      | workflowExecutionSignaledAttrs a =>
        exact notCM_of_error s (.err (.fatal startedBadAttrsMsg))
          (fun h => by injection h with h1; exact WFMachinesError.noConfusion h1)
      | workflowExecutionCancelRequestedAttrs a =>
        exact notCM_of_error s (.err (.fatal startedBadAttrsMsg))
          (fun h => by injection h with h1; exact WFMachinesError.noConfusion h1)
      | otherAttrs code =>
        exact notCM_of_error s (.err (.fatal startedBadAttrsMsg))
          (fun h => by injection h with h1; exact WFMachinesError.noConfusion h1)
  | workflowTaskScheduled =>
    dsimp only
    exact notCM_mbind (submachine_not_cm iface hnc s.all_machines.length event hne _)
      (fun s' a => notCM_of_ok _)
  | workflowExecutionSignaled =>
    cases hat : event.attributes with
    | none => exact notCM_of_ok _
    | some a => cases a <;> exact notCM_of_ok _
  | workflowExecutionCancelRequested =>
    cases hat : event.attributes with
    | none => exact notCM_of_ok _
    | some a => cases a <;> exact notCM_of_ok _
  | workflowTaskStarted =>
    exact notCM_of_error s (.err (.fatal nonStatefulUnexpectedMsg))
      (fun h => by injection h with h1; exact WFMachinesError.noConfusion h1)
  | workflowTaskCompleted =>
    exact notCM_of_error s (.err (.fatal nonStatefulUnexpectedMsg))
      (fun h => by injection h with h1; exact WFMachinesError.noConfusion h1)
  | otherEventType code =>
    exact notCM_of_error s (.err (.fatal nonStatefulUnexpectedMsg))
      (fun h => by injection h with h1; exact WFMachinesError.noConfusion h1)

lemma henc_not_cm (iface : MachineIface M) (hnc : NoCacheMissHandlers iface)
    (event : HistoryEvent) (hne : Bool) (s : WfState M) :
    ResultNotCM (handle_event_no_command iface event hne s) := by
  unfold handle_event_no_command
  cases hi : event.get_initial_command_event_id with
  | none => exact hns_not_cm iface hnc event hne s
  | some icid =>
    dsimp only
    cases hr : (removeAssoc s.machines_by_event_id icid).1 with
    | none =>
      exact notCM_of_error _ (.err (.nondeterminism missingCommandForEventMsg))
        (fun h => by injection h with h1; exact WFMachinesError.noConfusion h1)
    | some sm =>
      refine notCM_mbind (submachine_not_cm iface hnc sm event hne _) fun s' a => ?_
      intro s'' f h
      split at h <;> simp at h

lemma handle_event_not_cm (iface : MachineIface M) (hnc : NoCacheMissHandlers iface)
    (event : HistoryEvent) (hne : Bool) (s : WfState M) :
    ResultNotCM (handle_event iface event hne s) := by
  unfold handle_event
  by_cases hcmd : event.is_command_event = true <;> simp only [hcmd, if_true, if_false]
  · exact hce_not_cm iface hnc event (latch_terminal event s)
  · exact henc_not_cm iface hnc event hne (replay_flip event (latch_terminal event s))

lemma eventLoop_not_cm (iface : MachineIface M) (hnc : NoCacheMissHandlers iface) :
    ∀ (events : List HistoryEvent) (s : WfState M),
      ResultNotCM (eventLoop iface events s) := by
  intro events
  induction events with
  | nil => intro s; exact notCM_of_ok _
  | cons e rest ih =>
    intro s
    simp only [eventLoop]
    by_cases hb : e.event_type = EventType.workflowTaskStarted ∧ rest.isEmpty = true
    · rw [if_pos hb]
      exact handle_event_not_cm iface hnc e false s
    · rw [if_neg hb]
      exact notCM_mbind (handle_event_not_cm iface hnc e rest.isEmpty.not s)
        (fun s' a => ih s')

lemma empty_replay_reset_csid (events : List HistoryEvent) (s : WfState M) :
    (empty_replay_reset events s).current_started_event_id =
      s.current_started_event_id := by
  unfold empty_replay_reset
  split <;> rfl

lemma note_next_started_csid (events : List HistoryEvent) (s : WfState M) :
    (note_next_started events s).current_started_event_id =
      s.current_started_event_id := by
  unfold note_next_started
  cases events.getLast? with
  | none => rfl
  | some last_event => dsimp only; split <;> rfl

lemma empty_replay_reset_dispatched (events : List HistoryEvent) (s : WfState M) :
    (empty_replay_reset events s).dispatched = s.dispatched := by
  unfold empty_replay_reset
  split <;> rfl

lemma note_next_started_dispatched (events : List HistoryEvent) (s : WfState M) :
    (note_next_started events s).dispatched = s.dispatched := by
  unfold note_next_started
  cases events.getLast? with
  | none => rfl
  | some last_event => dsimp only; split <;> rfl

/-- C1: cache-miss detection.  When the terminal latch is unset and the
cursor returns `events`, then: if `current_started_event_id = 0`, `events`
is nonempty and its first event id is not 1, `apply_next_wft_from_history`
fails with `CacheMiss` before dispatching any event (the error state is the
pre-dispatch state, whose dispatch log is unchanged); and if any of the
three conditions fails, this call never produces a `CacheMiss` failure
(given that the sub-machine handlers themselves never return `CacheMiss`,
which is the coordinator's own error). -/
theorem c1_cache_miss_detection (iface : MachineIface M)
    (hnc : NoCacheMissHandlers iface) (s : WfState M)
    (events peeked : List HistoryEvent)
    (hterm : s.have_seen_terminal_event = false) :
    (s.current_started_event_id = 0 → events ≠ [] → firstEventId events ≠ 1 →
      apply_next_wft_from_history iface (.ok events) peeked s =
        .error (note_next_started events (empty_replay_reset events s),
          .err .cacheMiss) ∧
      (note_next_started events (empty_replay_reset events s)).dispatched =
        s.dispatched) ∧
    (¬(s.current_started_event_id = 0 ∧ events ≠ [] ∧ firstEventId events ≠ 1) →
      ∀ s2 f, apply_next_wft_from_history iface (.ok events) peeked s =
          .error (s2, f) → f ≠ .err .cacheMiss) := by
  constructor
  · intro h0 hne h1
    constructor
    · unfold apply_next_wft_from_history
      rw [if_neg (by simp [hterm])]
      dsimp only
      rw [if_pos ?hcond]
      case hcond =>
        refine ⟨?_, h1, ?_⟩
        · rw [note_next_started_csid, empty_replay_reset_csid]
          exact h0
        · cases events with
          | nil => exact absurd rfl hne
          | cons e rest => simp
    · rw [note_next_started_dispatched, empty_replay_reset_dispatched]
  · intro hncond s2 f happ
    unfold apply_next_wft_from_history at happ
    rw [if_neg (by simp [hterm])] at happ
    dsimp only at happ
    rw [if_neg ?hcond2] at happ
    case hcond2 =>
      intro hcond
      obtain ⟨hA, hB, hC⟩ := hcond
      refine hncond ⟨?_, ?_, hB⟩
      · rw [note_next_started_csid, empty_replay_reset_csid] at hA
        exact hA
      · cases events with
        | nil => exact absurd rfl hC
        | cons e rest => simp
    exact notCM_mbind (eventLoop_not_cm iface hnc events _)
      (fun s' a => notCM_of_ok _) s2 f happ

/-- Witness for C1: a fresh coordinator receiving partial history whose
first event id is 7 fails with `CacheMiss` and dispatches nothing. -/
theorem c1_cache_miss_detection_witness :
    apply_next_wft_from_history okIface (.ok [plainEvent7]) [] emptyState =
      .error (note_next_started [plainEvent7]
          (empty_replay_reset [plainEvent7] emptyState), .err .cacheMiss) ∧
    (note_next_started [plainEvent7]
        (empty_replay_reset [plainEvent7] emptyState)).dispatched =
      emptyState.dispatched :=
  (c1_cache_miss_detection okIface
      (fun m e b h => Except.noConfusion h)
      emptyState [plainEvent7] [] rfl).1
    rfl (by decide) (by decide)

end WFM
